import Mathlib

/-!
Verification development for the browser-based chunked-transcription app.

The definitions below are a shallow embedding of the TypeScript sources:
  * types (ProcessingStage, Version, MediaItem)        — src/types (re-exported declarations)
  * sliceLength / numWindows / windows                  — geminiService.sliceAudioBuffer and
                                                          App.startTranscription's Math.ceil(duration/CHUNK_DURATION)
  * transcribeSegment / processTextStage                — geminiService retry/fallback wrappers
  * startTranscription / chunkLoop / runBody            — App.startTranscription (the resumable loop)
  * runStage                                            — App.runStage
  * deleteProjectFromSupabase                           — supabaseClient.deleteProjectFromSupabase

Asynchronous effects are embedded by oracles: the per-chunk remote responses, the
externally observed pause signal, uuid generation, Date.now and the decoded audio
duration are inputs; state mutations on the live media queue entry are threaded
explicitly.  Machine floats of the source are modelled as exact rationals.
-/

/-- Mirrors enum ProcessingStage of src/types. -/
inductive ProcessingStage
  | RAW
  | ARABIC
  | TITLES
  | FORMAL
  | CUSTOM
deriving DecidableEq, Repr

/-- Mirrors the status union of MediaItem in src/types. -/
inductive Status
  | idle
  | uploading
  | processing
  | paused
  | completed
  | error
deriving DecidableEq, Repr

/-- Mirrors interface Version of src/types (ids are opaque; we use Nat). -/
structure Version where
  id : Nat
  stage : ProcessingStage
  name : String
  content : String
  parentId : Option Nat
  timestamp : Nat
  promptUsed : Option String := none
deriving DecidableEq, Repr

/-- Mirrors interface MediaItem of src/types.  The File handle is abstracted to
its presence (hasFile); duration is an exact rational. -/
structure MediaItem where
  id : Nat
  hasFile : Bool
  duration : ℚ
  status : Status
  progress : ℤ
  currentVersionId : Option Nat
  versions : List Version
  error : Option String
  processedChunks : Nat
  totalChunks : Nat
deriving DecidableEq, Repr

/-- CHUNK_DURATION = 240 seconds (App.tsx). -/
def CHUNK_DURATION : ℚ := 240

/-- Math.ceil(duration / CHUNK_DURATION) as used to compute totalChunks. -/
def numWindows (d : ℚ) : Nat := (⌈d / CHUNK_DURATION⌉).toNat

/-- Length of the blob returned by sliceAudioBuffer(buffer, startTime, dur):
empty when startTime is at or past the end, else min(dur, total − startTime). -/
def sliceLength (totalDur startTime dur : ℚ) : ℚ :=
  if totalDur ≤ startTime then 0 else min dur (totalDur - startTime)

/-- The ordered windows the transcription loop processes: index i gives
(start offset i·240, slice length), for i = 0 .. numWindows d − 1. -/
def windows (d : ℚ) : List (Nat × ℚ × ℚ) :=
  (List.range (numWindows d)).map
    (fun i => (i, (i : ℚ) * CHUNK_DURATION, sliceLength d ((i : ℚ) * CHUNK_DURATION) CHUNK_DURATION))

deriving instance DecidableEq for Except

/-! ### supabaseClient.deleteProjectFromSupabase -/

/-- Error text thrown when the existence check fails. -/
def notFoundMsg : String :=
  "فایل مورد نظر در دیتابیس یافت نشد یا دسترسی خواندن ندارید."

/-- Error text thrown when the delete reports zero (or null) affected rows. -/
def policyMsg : String :=
  "دیتابیس عملیات حذف را مسدود کرد! (RLS Error). لطفاً دستور SQL \"DISABLE ROW LEVEL SECURITY\" را در سوپابیس اجرا کنید."

/-- Result of the delete flow: the returned/thrown value plus whether the
delete statement was ever issued. -/
structure DeleteOutcome where
  result : Except String Bool
  attemptedDelete : Bool
deriving DecidableEq, Repr

/-- deleteProjectFromSupabase, with the three remote interactions as oracles:
`checkError` is the error (if any) of the single() existence check,
`deleteError` the error of the delete call, `deleteCount` its affected-row
count (none models a null count). -/
def deleteProjectFromSupabase (checkError : Option String)
    (deleteError : Option String) (deleteCount : Option Nat) : DeleteOutcome :=
  match checkError with
  | some _ => ⟨.error notFoundMsg, false⟩
  | none =>
    match deleteError with
    | some msg => ⟨.error msg, true⟩
    | none =>
      match deleteCount with
      | none => ⟨.error policyMsg, true⟩
      | some 0 => ⟨.error policyMsg, true⟩
      | some (_ + 1) => ⟨.ok true, true⟩

/-! ### geminiService retry / fallback wrappers -/

/-- The literal fallback chain [selectedModel, ...] shared by transcribeSegment
(MODELS_TO_TRY) and processTextStage (MODELS). -/
def FALLBACK_MODELS (selectedModel : String) : List String :=
  [selectedModel, "gemini-3-flash-preview", "gemini-2.5-pro-preview",
   "gemini-2.5-flash-preview", "gemini-2.0-flash-exp", "gemini-1.5-flash"]

/-- JS [...new Set(list)], via the insertion-order worklist of a Set: an
element is kept iff it has not been seen before. -/
def jsSetDedupGo (seen : List String) : List String → List String
  | [] => []
  | x :: xs =>
    if seen.contains x then jsSetDedupGo seen xs
    else x :: jsSetDedupGo (seen ++ [x]) xs

/-- JS [...new Set(list)]: duplicates removed, first occurrence kept. -/
def jsSetDedup (l : List String) : List String := jsSetDedupGo [] l

/-- Trace of one remote-call wrapper invocation: overall result, the attempts
made in order (model, attempt number 1..3) and the backoff waits performed
(milliseconds, in order). -/
structure CallTrace where
  result : Except String String
  attempts : List (String × Nat)
  delaysMs : List Nat
deriving DecidableEq, Repr

/-- The inner 3-attempt loop of transcribeSegment on one model.  `call m a` is
the outcome of attempt `a` on model `m`.  A wait of 1000·2^(a−1) ms follows
every failed attempt `a` (including the third, before the next model). -/
def tryModel3 (call : String → Nat → Except String String) (m : String) : CallTrace :=
  match call m 1 with
  | .ok t => ⟨.ok t, [(m, 1)], []⟩
  | .error _ =>
    match call m 2 with
    | .ok t => ⟨.ok t, [(m, 1), (m, 2)], [1000]⟩
    | .error _ =>
      match call m 3 with
      | .ok t => ⟨.ok t, [(m, 1), (m, 2), (m, 3)], [1000, 2000]⟩
      | .error e3 => ⟨.error e3, [(m, 1), (m, 2), (m, 3)], [1000, 2000, 4000]⟩

/-- The outer for-loop of transcribeSegment over the deduplicated model list,
carrying lastError. -/
def modelsLoop (call : String → Nat → Except String String) :
    List String → Option String → CallTrace
  | [], lastError =>
    ⟨.error (match lastError with
             | some e => e
             | none => "Transcription failed after multiple attempts."), [], []⟩
  | m :: rest, _ =>
    match tryModel3 call m with
    | ⟨.ok t, att, ds⟩ => ⟨.ok t, att, ds⟩
    | ⟨.error e, att, ds⟩ =>
      let r := modelsLoop call rest (some e)
      ⟨r.result, att ++ r.attempts, ds ++ r.delaysMs⟩

/-- transcribeSegment(apiKey, chunk, mime, selectedModel): the retry/fallback
shell.  The remote generateContent call (with response cleaning) is the oracle
`call`; the audio payload is fixed and therefore omitted from the model. -/
def transcribeSegment (call : String → Nat → Except String String)
    (selectedModel : String) : CallTrace :=
  modelsLoop call (jsSetDedup (FALLBACK_MODELS selectedModel)) none

/-- The for-loop of processTextStage: one attempt per model, rethrowing only
when the failing model is (by value) the last of the deduplicated list.
Returns the result and the list of models actually attempted, in order. -/
def textLoop (call : String → Except String String) (lastModel : String) :
    List String → Except String String × List String
  | [] => (.ok "", [])
  | m :: rest =>
    match call m with
    | .ok r => (.ok r, [m])
    | .error e =>
      if m = lastModel then (.error e, [m])
      else
        let p := textLoop call lastModel rest
        (p.1, m :: p.2)

/-- processTextStage(apiKey, text, stage, selectedModel, customPrompt): the
stage switch throws "Invalid stage" for RAW (the default case) before any
remote call; otherwise each candidate model is tried exactly once with no
backoff.  `call m` is the remote call on model m (prompt fixed). -/
def processTextStage (call : String → Except String String)
    (stage : ProcessingStage) (selectedModel : String) :
    Except String String × List String :=
  if stage = .RAW then (.error "Invalid stage", [])
  else
    let uniq := jsSetDedup (FALLBACK_MODELS selectedModel)
    textLoop call (uniq.getLastD "") uniq

/-! ### App.startTranscription — the resumable chunked-transcription loop -/

/-- Display names used for the RAW version in App.tsx. -/
def rawCreatingName : String := "متن خام (در حال تولید...)"

/-- Name of the RAW version recreated by the resume fallback path. -/
def rawResumeName : String := "متن خام (ادامه...)"

/-- Name patched onto the RAW version after each committed chunk. -/
def rawProgressName : String := "متن خام (در حال تکمیل)"

/-- Name patched onto the RAW version on completion. -/
def rawDoneName : String := "متن خام (کامل)"

/-- Default error text: err.message fallback in the catch handler. -/
def defaultErrText : String := "خطا در برقراری ارتباط"

/-- errorMessage = err.message or the default when the message is empty. -/
def errMessage (m : String) : String := if m = "" then defaultErrText else m

/-- addVersionToItem: push the version and optionally make it current. -/
def addVersionToItem (item : MediaItem) (v : Version) (setAsCurrent : Bool) : MediaItem :=
  { item with
    versions := item.versions ++ [v]
    currentVersionId := if setAsCurrent then some v.id else item.currentVersionId }

/-- The setMediaQueue map that replaces content and name of the version with
the given id (all other versions untouched, order preserved). -/
def patchVersion (vs : List Version) (vid : Nat) (content name : String) : List Version :=
  vs.map (fun v => if v.id = vid then { v with content := content, name := name } else v)

/-- The completion-time setMediaQueue map that replaces only the name. -/
def patchName (vs : List Version) (vid : Nat) (name : String) : List Version :=
  vs.map (fun v => if v.id = vid then { v with name := name } else v)

/-- Oracles for one startTranscription invocation: presence of the api key,
the answer of the confirm() dialog, the remote transcription result per chunk
index, the externally observed pause signal per chunk index (true when the
live item reads status 'paused' with no error at the top of that iteration),
fresh uuids (a second one for the restart recursion), Date.now, and the
duration reported by decodeAudioFile. -/
structure StartEnv where
  apiKey : Bool
  confirmContinue : Bool
  responses : Nat → Except String String
  pause : Nat → Bool
  freshId : Nat
  freshId2 : Nat
  now : Nat
  decodedDuration : ℚ

/-- Which control path ended the invocation. -/
inductive RunExit
  | notRun
  | userPaused
  | completedAll
  | raised (msg : String)
deriving DecidableEq, Repr

/-- Observable outcome of startTranscription: the final live queue entry, the
item passed to handleSaveToCloud (if any), the chunk indices sent to the
remote call in order, and the exit path. -/
structure StartOutcome where
  live : MediaItem
  savedItem : Option MediaItem
  sent : List Nat
  exit : RunExit
deriving DecidableEq, Repr

/-- State carried out of the for-loop over chunks. -/
structure LoopRes where
  live : MediaItem
  fullTranscript : String
  sent : List Nat
  completedSuccessfully : Bool
  caught : Option String
deriving DecidableEq, Repr

/-- One pass of the for-loop body per index in the worklist: check the
external pause signal, publish progress, send the chunk, and on success
append to the transcript, advance processedChunks, publish progress and patch
the RAW version content.  A failed remote call raises (caught = some msg). -/
def chunkIter (responses : Nat → Except String String) (pause : Nat → Bool)
    (baseVersionId : Nat) (total : Nat) :
    List Nat → MediaItem → String → List Nat → LoopRes
  | [], live, fullTranscript, sent => ⟨live, fullTranscript, sent, true, none⟩
  | i :: rest, live, fullTranscript, sent =>
    if pause i then
      ⟨{ live with status := .paused, error := none }, fullTranscript, sent, false, none⟩
    else
      let live1 := { live with progress := round ((i : ℚ) / (total : ℚ) * 100) }
      match responses i with
      | .error msg => ⟨live1, fullTranscript, sent ++ [i], true, some msg⟩
      | .ok chunkText =>
        let t1 := fullTranscript ++ chunkText ++ " "
        let live2 := { live1 with
                       processedChunks := i + 1
                       progress := round (((i : ℚ) + 1) / (total : ℚ) * 100) }
        let live3 := { live2 with
                       versions := patchVersion live2.versions baseVersionId t1 rawProgressName }
        chunkIter responses pause baseVersionId total rest live3 t1 (sent ++ [i])

/-- The for-loop `for (i = startIndex; i < total; i++)` of startTranscription:
iterate the body over the index sequence startIndex .. total − 1. -/
def chunkLoop (responses : Nat → Except String String) (pause : Nat → Bool)
    (baseVersionId : Nat) (total : Nat) (i : Nat) (live : MediaItem)
    (fullTranscript : String) (sent : List Nat) : LoopRes :=
  chunkIter responses pause baseVersionId total (List.range' i (total - i))
    live fullTranscript sent

/-- The tail of the try/catch body of startTranscription, after the chunk
loop has returned: the catch handler (status paused, lastError recorded,
progress reset to the stale parameter's progress, no save), or the
user-paused clean exit (no further mutation, no save), or the completion
commit (status completed, RAW display name finalised, explicit save of the
item rebuilt from the stale parameter and the tracked initialVersions). -/
def runBodyFinish (env : StartEnv) (item : MediaItem) (currentDuration : ℚ)
    (currentTotalChunks base : Nat) (initialVersions : List Version)
    (res : LoopRes) : StartOutcome :=
  match res.caught with
  | some msg =>
    ⟨{ res.live with
       status := .paused
       error := some (errMessage msg)
       progress := item.progress },
     none, res.sent, .raised msg⟩
  | none =>
    if res.completedSuccessfully then
      let live2 := { res.live with
                     status := .completed
                     progress := 100
                     versions := patchName res.live.versions base rawDoneName }
      let finalVersions0 := patchVersion initialVersions base
                              res.fullTranscript rawDoneName
      let finalVersions := if finalVersions0.any (fun v => v.id == base) then
                             finalVersions0
                           else finalVersions0 ++
                             [⟨base, .RAW, rawDoneName, res.fullTranscript,
                               none, env.now, none⟩]
      let savedItem := { item with
                         status := .completed
                         progress := 100
                         duration := currentDuration
                         totalChunks := currentTotalChunks
                         processedChunks := currentTotalChunks
                         versions := finalVersions
                         currentVersionId := some base }
      ⟨live2, some savedItem, res.sent, .completedAll⟩
    else ⟨res.live, none, res.sent, .userPaused⟩

/-- The try/catch body of startTranscription after version resolution:
decode (when startIndex = 0 or duration unknown — the single source `if`
updating duration, totalChunks and the live entry is written as three `if`s
on the same condition), resolve totalChunks with the zero fallback, run the
chunk loop, then finish.  `item` is the stale function parameter, `live` the
current queue entry. -/
def runBody (env : StartEnv) (item live : MediaItem) (startIndex : Nat)
    (baseVersionId : Nat) (fullTranscript0 : String)
    (initialVersions : List Version) : StartOutcome :=
  let dd := env.decodedDuration
  let currentDuration := if startIndex = 0 ∨ item.duration = 0 then dd else item.duration
  let total0 := if startIndex = 0 ∨ item.duration = 0 then numWindows dd else item.totalChunks
  let live1 := if startIndex = 0 ∨ item.duration = 0 then
                 { live with duration := dd, totalChunks := numWindows dd }
               else live
  let currentTotalChunks := if total0 = 0 then numWindows dd else total0
  runBodyFinish env item currentDuration currentTotalChunks baseVersionId initialVersions
    (chunkLoop env.responses env.pause baseVersionId currentTotalChunks
      startIndex live1 fullTranscript0 [])

/-- The create-new-RAW-version path of startTranscription (taken when
startIndex = 0, and by the restart recursion): create the RAW version with
empty content, make it current, and run the body from chunk 0. -/
def freshRun (env : StartEnv) (live item : MediaItem) : StartOutcome :=
  let newVer : Version := ⟨env.freshId, .RAW, rawCreatingName, "", none, env.now, none⟩
  runBody env item (addVersionToItem live newVer true) 0 env.freshId ""
    (item.versions ++ [newVer])

/-- startTranscription(item, isResuming).  Returns without mutating when the
api key or the source file is missing.  startIndex is item.processedChunks
(the source's `item.processedChunks || 0`).  The restart branch (non-resume
with prior progress and the user declining to continue) resets the live
counters and recurses with resume = false on the parameter with
processedChunks reset; that recursive call necessarily passes the api-key and
file checks again (unchanged) and, having processedChunks = 0, takes the
create-new-RAW path, so it is inlined here as freshRun with the second fresh
uuid.  `live` is the current live queue entry (equal to `item` for a fresh
invocation). -/
def startTranscription (env : StartEnv) (live item : MediaItem)
    (isResuming : Bool) : StartOutcome :=
  if ¬ env.apiKey then ⟨live, none, [], .notRun⟩
  else if ¬ item.hasFile then ⟨live, none, [], .notRun⟩
  else
    let startIndex := item.processedChunks
    let live0 := { live with status := .processing, error := none }
    if isResuming ∧ item.versions ≠ [] then
      match item.versions.find? (fun v => v.stage == .RAW) with
      | some existingRaw =>
        runBody env item live0 startIndex existingRaw.id existingRaw.content item.versions
      | none =>
        let newVer : Version := ⟨env.freshId, .RAW, rawResumeName, "", none, env.now, none⟩
        runBody env item (addVersionToItem live0 newVer true) startIndex env.freshId ""
          (item.versions ++ [newVer])
    else
      if item.processedChunks > 0 ∧ ¬ env.confirmContinue then
        freshRun { env with freshId := env.freshId2 }
          { live0 with processedChunks := 0, totalChunks := 0 }
          { item with processedChunks := 0 }
      else
        if startIndex = 0 then freshRun env live0 item
        else
          match item.versions.find? (fun v => v.stage == .RAW) with
          | some existingRaw =>
            runBody env item live0 startIndex existingRaw.id existingRaw.content item.versions
          | none =>
            runBody env item live0 startIndex env.freshId "" item.versions

/-! ### App.runStage — single post-processing stage run -/

/-- The switch on stage building stageName; RAW falls through with "". -/
def stageNameOf : ProcessingStage → String
  | .ARABIC => "اعراب‌گذاری شده"
  | .TITLES => "عنوان‌بندی شده"
  | .FORMAL => "رسمی شده"
  | .CUSTOM => "ویرایش سفارشی"
  | .RAW => ""

/-- Placeholder content of the freshly created stage version. -/
def waitContent : String := "لطفاً صبر کنید..."

/-- Content written into the stage version on failure. -/
def stageFailContent : String := "خطا در پردازش. لطفا مجدد تلاش کنید."

/-- Observable outcome of runStage: final live item and the item passed to
handleSaveToCloud (some only on success). -/
structure StageOutcome where
  live : MediaItem
  savedItem : Option MediaItem
deriving DecidableEq, Repr

/-- The synchronous prefix of runStage, executed before the remote transform
call resolves: the parent lookup, the immediate append of the placeholder
version (made current) and the status/progress update.  none when the api key
is missing or parentVersionId does not resolve (silent no-op). -/
def runStagePre (apiKey : Bool) (freshId now : Nat) (activeItem : MediaItem)
    (stage : ProcessingStage) (parentVersionId : Nat)
    (customPrompt : Option String) : Option (MediaItem × Version) :=
  if ¬ apiKey then none
  else
    match activeItem.versions.find? (fun v => v.id == parentVersionId) with
    | none => none
    | some _ =>
      let stageName := stageNameOf stage
      let newVersion : Version :=
        ⟨freshId, stage, stageName ++ " (در حال پردازش...)", waitContent,
         some parentVersionId, now, customPrompt⟩
      let live1 := addVersionToItem activeItem newVersion true
      some ({ live1 with status := .processing, progress := 0 }, newVersion)

/-- runStage(stage, parentVersionId, customPrompt).  `result` is the outcome
of the awaited processTextStage call.  The cosmetic progress-interval timer
only mutates progress while the call is outstanding and is not modelled. -/
def runStage (apiKey : Bool) (freshId now : Nat) (result : Except String String)
    (activeItem : MediaItem) (stage : ProcessingStage) (parentVersionId : Nat)
    (customPrompt : Option String) : StageOutcome :=
  match runStagePre apiKey freshId now activeItem stage parentVersionId customPrompt with
  | none => ⟨activeItem, none⟩
  | some (mid, newVersion) =>
    let stageName := stageNameOf stage
    match result with
    | .ok r =>
      let live3 := { mid with
                     status := .completed
                     progress := 100
                     versions := patchVersion mid.versions freshId r stageName }
      let savedItem := { activeItem with
                         status := .completed
                         progress := 100
                         versions := activeItem.versions ++
                           [{ newVersion with content := r, name := stageName }] }
      ⟨live3, some savedItem⟩
    | .error _ =>
      let live3 := { mid with
                     status := .error
                     progress := 0
                     versions := patchVersion mid.versions freshId stageFailContent
                       (stageName ++ " (ناموفق)") }
      ⟨live3, none⟩

/-! ### Caller-side guards on starting a run (App.tsx render + online listener) -/

/-- The sidebar start/resume button is rendered only for idle or paused items
with a file present. -/
def startButtonShown (item : MediaItem) : Bool :=
  (item.status == .idle || item.status == .paused) && item.hasFile

/-- The network-reconnection listener picks the first paused item. -/
def handleOnlinePick (queue : List MediaItem) : Option MediaItem :=
  queue.find? (fun i => i.status == .paused)

/-- The content of the first RAW version of an item (find by stage). -/
def getRawContent (item : MediaItem) : Option String :=
  (item.versions.find? (fun v => v.stage == .RAW)).map (fun v => v.content)

/-- Space-suffixed concatenation of the chunk texts `r i` over an index list:
what the loop accumulates (each chunk contributes its text plus one space). -/
def transcriptOf (r : Nat → String) : List Nat → String
  | [] => ""
  | i :: rest => r i ++ " " ++ transcriptOf r rest

/-- The live item state after the loop has successfully committed exactly the
chunks of the index list `l` (starting from state `live` and accumulated
transcript `t`): unchanged for an empty list, else processedChunks is one
past the last index, progress its percentage, and the RAW version content the
extended transcript. -/
def afterOk (r : Nat → String) (base total : Nat) (live : MediaItem) (t : String) :
    List Nat → MediaItem
  | [] => live
  | l@(_ :: _) =>
    { live with
      processedChunks := l.getLastD 0 + 1
      progress := round (((l.getLastD 0 : ℚ) + 1) / (total : ℚ) * 100)
      versions := patchVersion live.versions base (t ++ transcriptOf r l) rawProgressName }

/-- The attempt trace (model, attempt number) of a full 3-attempts-per-model
sweep over a candidate list. -/
def attemptsFor : List String → List (String × Nat)
  | [] => []
  | m :: rest => [(m, 1), (m, 2), (m, 3)] ++ attemptsFor rest

/-- The backoff-delay trace of a full 3-attempts-per-model sweep. -/
def delaysFor : List String → List Nat
  | [] => []
  | _ :: rest => [1000, 2000, 4000] ++ delaysFor rest

/-- The total chunk count runBody resolves for a given start index: recomputed
from the decoded duration when startIndex = 0 or the duration is unknown,
else taken from the item, falling back to the decoded duration when 0. -/
def resolvedTotalAux (env : StartEnv) (item : MediaItem) (si : Nat) : Nat :=
  let t0 := if si = 0 ∨ item.duration = 0 then numWindows env.decodedDuration
            else item.totalChunks
  if t0 = 0 then numWindows env.decodedDuration else t0

/-- The total chunk count a startTranscription invocation resolves (its start
index being item.processedChunks). -/
def resolvedTotal (env : StartEnv) (item : MediaItem) : Nat :=
  resolvedTotalAux env item item.processedChunks

/-! ### Generic helper lemmas -/

lemma getLastD_cons_self {α : Type} (a d : α) (l : List α) :
    (a :: l).getLastD d = l.getLastD a := by
  cases l <;> simp [List.getLastD]

lemma getLastD_irrel {α : Type} (l : List α) (h : l ≠ []) (d1 d2 : α) :
    l.getLastD d1 = l.getLastD d2 := by
  rw [List.getLastD_eq_getLast?, List.getLastD_eq_getLast?,
      List.getLast?_eq_getLast_of_ne_nil h]
  rfl

lemma range'_concat_one (s n : Nat) :
    List.range' s (n + 1) = List.range' s n ++ [s + n] := by
  have h : List.range' s (n + 1) 1 = List.range' s n 1 ++ [s + 1 * n] :=
    List.range'_concat s n
  simpa using h

lemma range'_cons_one (s n : Nat) :
    List.range' s (n + 1) = s :: List.range' (s + 1) n := by
  simpa using List.range'_succ s n 1

lemma getLastD_range' (s : Nat) : ∀ n d, (List.range' s (n + 1)).getLastD d = s + n := by
  intro n d
  rw [range'_concat_one]
  simp [List.getLastD_concat]

lemma patchVersion_patchVersion (vs : List Version) (vid : Nat) (c1 n1 c2 n2 : String) :
    patchVersion (patchVersion vs vid c1 n1) vid c2 n2 = patchVersion vs vid c2 n2 := by
  simp only [patchVersion, List.map_map]
  congr 1
  funext v
  by_cases h : v.id = vid <;> simp [h]

lemma patchVersion_append_fresh (l : List Version) (v : Version) (vid : Nat)
    (c n : String) (hl : ∀ u ∈ l, u.id ≠ vid) (hv : v.id = vid) :
    patchVersion (l ++ [v]) vid c n = l ++ [{ v with content := c, name := n }] := by
  induction l with
  | nil => simp [patchVersion, hv]
  | cons u l ih =>
    have hu : u.id ≠ vid := hl u (by simp)
    have ih' := ih (fun w hw => hl w (by simp [hw]))
    simpa [patchVersion, hu] using ih'

lemma listRangeMapSum (n : Nat) (f : Nat → ℚ) :
    ((List.range n).map f).sum = ∑ i ∈ Finset.range n, f i := by
  induction n with
  | zero => simp
  | succ n ih => simp [List.range_succ, Finset.sum_range_succ, ih]

/-! ### C3: chunk-count and window lengths -/

lemma chunkDur_pos : (0 : ℚ) < CHUNK_DURATION := by norm_num [CHUNK_DURATION]

lemma lt_of_lt_numWindows {d : ℚ} {i : Nat} (h : i < numWindows d) :
    (i : ℚ) * CHUNK_DURATION < d := by
  have h1 : (i : ℤ) < ⌈d / CHUNK_DURATION⌉ := by
    have := (Int.lt_toNat).mp h
    exact_mod_cast this
  have h2 : (i : ℚ) < d / CHUNK_DURATION := by
    exact_mod_cast Int.lt_ceil.mp h1
  calc (i : ℚ) * CHUNK_DURATION < d / CHUNK_DURATION * CHUNK_DURATION :=
        mul_lt_mul_of_pos_right h2 chunkDur_pos
    _ = d := div_mul_cancel₀ d (ne_of_gt chunkDur_pos)

lemma sum_min_windows : ∀ (n : Nat) (d : ℚ), 0 < d → numWindows d = n →
    (∑ i ∈ Finset.range n, min CHUNK_DURATION (d - (i : ℚ) * CHUNK_DURATION)) = d := by
  intro n
  induction n with
  | zero =>
    intro d hd hn
    exfalso
    have hpos : 0 < ⌈d / CHUNK_DURATION⌉ := Int.ceil_pos.mpr (div_pos hd chunkDur_pos)
    simp only [numWindows] at hn
    omega
  | succ n ih =>
    intro d hd hn
    by_cases hle : d ≤ CHUNK_DURATION
    · have hceil : (⌈d / CHUNK_DURATION⌉ : ℤ) = 1 := by
        rw [Int.ceil_eq_iff] <;> constructor
        · simpa using div_pos hd chunkDur_pos
        · simpa using (div_le_one chunkDur_pos).mpr hle
      have hn0 : n = 0 := by
        simp only [numWindows, hceil] at hn
        omega
      subst hn0
      simp [Finset.sum_range_one, min_eq_right hle]
    · push_neg at hle
      have hd' : 0 < d - CHUNK_DURATION := by linarith
      have hceil : ⌈(d - CHUNK_DURATION) / CHUNK_DURATION⌉ = ⌈d / CHUNK_DURATION⌉ - 1 := by
        rw [sub_div, div_self (ne_of_gt chunkDur_pos)]
        simpa using Int.ceil_sub_int (d / CHUNK_DURATION) 1
      have hpos : 0 < ⌈d / CHUNK_DURATION⌉ := Int.ceil_pos.mpr (div_pos hd chunkDur_pos)
      have hnw : numWindows (d - CHUNK_DURATION) = n := by
        simp only [numWindows] at hn ⊢
        rw [hceil]
        omega
      have hsum := ih (d - CHUNK_DURATION) hd' hnw
      rw [Finset.sum_range_succ']
      have hrw : ∀ k : Nat, k ∈ Finset.range n →
          min CHUNK_DURATION (d - ((k + 1 : Nat) : ℚ) * CHUNK_DURATION)
            = min CHUNK_DURATION ((d - CHUNK_DURATION) - (k : ℚ) * CHUNK_DURATION) := by
        intro k _
        congr 1
        push_cast
        ring
      rw [Finset.sum_congr rfl hrw, hsum]
      simp only [Nat.cast_zero, zero_mul, sub_zero]
      rw [min_eq_left (le_of_lt hle)]
      ring

/-- C3: for every duration d > 0 with window length 240, the loop processes
exactly ceil(d/240) windows; window i starts at i·240 and (the slice guard
never firing) has length min(240, d − i·240), every non-last window has
length exactly 240, and the window lengths sum to d. -/
theorem c3_window_partition (d : ℚ) (hd : 0 < d) :
    (windows d).length = (⌈d / CHUNK_DURATION⌉).toNat ∧
    (∀ i, i < numWindows d →
      sliceLength d ((i : ℚ) * CHUNK_DURATION) CHUNK_DURATION
        = min CHUNK_DURATION (d - (i : ℚ) * CHUNK_DURATION)) ∧
    (∀ i, i + 1 < numWindows d →
      sliceLength d ((i : ℚ) * CHUNK_DURATION) CHUNK_DURATION = CHUNK_DURATION) ∧
    ((windows d).map (fun t => t.2.2)).sum = d := by
  have hguard : ∀ i, i < numWindows d →
      sliceLength d ((i : ℚ) * CHUNK_DURATION) CHUNK_DURATION
        = min CHUNK_DURATION (d - (i : ℚ) * CHUNK_DURATION) := by
    intro i hi
    have := lt_of_lt_numWindows hi
    rw [sliceLength, if_neg (by linarith)]
  refine ⟨by simp [windows, numWindows], hguard, ?_, ?_⟩
  · intro i hi
    have hlt : ((i : ℚ) + 1) * CHUNK_DURATION < d := by
      have := lt_of_lt_numWindows hi
      push_cast at this
      linarith
    have hgap : CHUNK_DURATION < d - (i : ℚ) * CHUNK_DURATION := by nlinarith [chunkDur_pos]
    rw [hguard i (by omega)]
    exact min_eq_left (le_of_lt hgap)
  · have hmap : (windows d).map (fun t => t.2.2)
        = (List.range (numWindows d)).map
            (fun i : Nat => sliceLength d ((i : ℚ) * CHUNK_DURATION) CHUNK_DURATION) := by
      rw [windows, List.map_map]
      rfl
    rw [hmap, listRangeMapSum,
        Finset.sum_congr rfl (fun i hi => hguard i (Finset.mem_range.mp hi))]
    exact sum_min_windows (numWindows d) d hd rfl

/-- C3 witness at d = 500 (3 windows of lengths 240, 240, 20). -/
theorem c3_window_partition_witness :
    (0 : ℚ) < 500 ∧
    ((windows 500).length = (⌈(500 : ℚ) / CHUNK_DURATION⌉).toNat ∧
     (∀ i, i < numWindows 500 →
       sliceLength 500 ((i : ℚ) * CHUNK_DURATION) CHUNK_DURATION
         = min CHUNK_DURATION (500 - (i : ℚ) * CHUNK_DURATION)) ∧
     (∀ i, i + 1 < numWindows 500 →
       sliceLength 500 ((i : ℚ) * CHUNK_DURATION) CHUNK_DURATION = CHUNK_DURATION) ∧
     ((windows 500).map (fun t => t.2.2)).sum = 500) :=
  ⟨by norm_num, c3_window_partition 500 (by norm_num)⟩

/-! ### C9: delete policy surfacing -/

/-- C9: the delete flow first confirms existence (a failing check raises the
not-found error without issuing the delete); a delete reporting zero or null
affected rows despite confirmed existence raises the distinct policy-blocked
error; only a positive affected-row count returns ok. -/
theorem c9_delete_policy (checkError deleteError : Option String) (deleteCount : Option Nat) :
    (∀ e, checkError = some e →
      deleteProjectFromSupabase checkError deleteError deleteCount
        = ⟨.error notFoundMsg, false⟩) ∧
    (checkError = none → deleteError = none → (deleteCount = none ∨ deleteCount = some 0) →
      deleteProjectFromSupabase checkError deleteError deleteCount
        = ⟨.error policyMsg, true⟩) ∧
    (checkError = none → deleteError = none → ∀ n, deleteCount = some (n + 1) →
      deleteProjectFromSupabase checkError deleteError deleteCount
        = ⟨.ok true, true⟩) ∧
    policyMsg ≠ notFoundMsg := by
  refine ⟨?_, ?_, ?_, by decide⟩
  · intro e he
    subst he
    rfl
  · intro h1 h2 h3
    subst h1; subst h2
    rcases h3 with h | h <;> subst h <;> rfl
  · intro h1 h2 n h3
    subst h1; subst h2; subst h3
    rfl

/-- C9 witness: a silently ignored delete of a confirmed-existing id yields the
policy-blocked error. -/
theorem c9_delete_policy_witness :
    deleteProjectFromSupabase none none (some 0) = ⟨.error policyMsg, true⟩ :=
  (c9_delete_policy none none (some 0)).2.1 rfl rfl (Or.inr rfl)

/-! ### C2: retry / fallback policies of the two remote-call wrappers -/

lemma mem_jsSetDedupGo (a : String) :
    ∀ (l seen : List String), a ∈ jsSetDedupGo seen l → a ∈ l ∧ a ∉ seen := by
  intro l
  induction l with
  | nil => intro seen h; simp [jsSetDedupGo] at h
  | cons x xs ih =>
    intro seen h
    by_cases hc : seen.contains x
    · rw [jsSetDedupGo, if_pos hc] at h
      have := ih seen h
      exact ⟨by simp [this.1], this.2⟩
    · rw [jsSetDedupGo, if_neg hc] at h
      rcases List.mem_cons.mp h with rfl | h'
      · refine ⟨by simp, ?_⟩
        intro hmem
        exact hc (by simpa using hmem)
      · have := ih (seen ++ [x]) h'
        refine ⟨by simp [this.1], fun hmem => this.2 (by simp [hmem])⟩

lemma nodup_jsSetDedupGo : ∀ (l seen : List String), (jsSetDedupGo seen l).Nodup := by
  intro l
  induction l with
  | nil => intro seen; simp [jsSetDedupGo]
  | cons x xs ih =>
    intro seen
    by_cases hc : seen.contains x
    · rw [jsSetDedupGo, if_pos hc]
      exact ih seen
    · rw [jsSetDedupGo, if_neg hc]
      refine List.nodup_cons.mpr ⟨?_, ih (seen ++ [x])⟩
      intro hmem
      exact (mem_jsSetDedupGo x xs (seen ++ [x]) hmem).2 (by simp)

lemma nodup_jsSetDedup (l : List String) : (jsSetDedup l).Nodup :=
  nodup_jsSetDedupGo l []

lemma jsSetDedup_cons (x : String) (xs : List String) :
    jsSetDedup (x :: xs) = x :: jsSetDedupGo [x] xs := by
  simp [jsSetDedup, jsSetDedupGo]

lemma jsSetDedup_fallback_ne_nil (sel : String) :
    jsSetDedup (FALLBACK_MODELS sel) ≠ [] := by
  rw [FALLBACK_MODELS, jsSetDedup_cons]
  simp

lemma attemptsFor_length : ∀ l : List String, (attemptsFor l).length = 3 * l.length := by
  intro l
  induction l with
  | nil => simp [attemptsFor]
  | cons m rest ih => simp [attemptsFor, ih]; ring

lemma modelsLoop_all_fail (call : String → Nat → Except String String)
    (f : String → Nat → String) (hc : ∀ m a, call m a = .error (f m a)) :
    ∀ (l : List String), l ≠ [] → ∀ (le : Option String),
      modelsLoop call l le =
        ⟨.error (f (l.getLastD "") 3), attemptsFor l, delaysFor l⟩ := by
  intro l
  induction l with
  | nil => intro h; exact absurd rfl h
  | cons m rest ih =>
    intro _ le
    have htm : tryModel3 call m =
        ⟨.error (f m 3), [(m, 1), (m, 2), (m, 3)], [1000, 2000, 4000]⟩ := by
      rw [tryModel3, hc, hc, hc]
    cases hrest : rest with
    | nil =>
      subst hrest
      rw [modelsLoop, htm]
      dsimp only
      simp [modelsLoop, attemptsFor, delaysFor, List.getLastD]
    | cons m2 rest2 =>
      subst hrest
      rw [modelsLoop, htm]
      dsimp only
      rw [ih (by simp) (some (f m 3))]
      simp [getLastD_cons_self, attemptsFor, delaysFor]

lemma textLoop_all_fail (call : String → Except String String)
    (f : String → String) (hc : ∀ m, call m = .error (f m)) :
    ∀ (l : List String), l ≠ [] → l.Nodup →
      textLoop call (l.getLastD "") l = (.error (f (l.getLastD "")), l) := by
  intro l
  induction l with
  | nil => intro h; exact absurd rfl h
  | cons m rest ih =>
    intro _ hnd
    cases hrest : rest with
    | nil =>
      rw [textLoop, hc]
      simp [List.getLastD]
    | cons m2 rest2 =>
      subst hrest
      have hrne : (m2 :: rest2) ≠ [] := by simp
      have hlast : (m :: m2 :: rest2).getLastD "" = (m2 :: rest2).getLastD "" := by
        rw [getLastD_cons_self, getLastD_irrel _ hrne]
      have hmne : m ≠ (m :: m2 :: rest2).getLastD "" := by
        rw [hlast, List.getLastD_eq_getLast?, List.getLast?_eq_getLast_of_ne_nil hrne]
        intro hEq
        have hmem : (m2 :: rest2).getLast hrne ∈ m2 :: rest2 := List.getLast_mem hrne
        rw [Option.getD_some] at hEq
        exact (List.nodup_cons.mp hnd).1 (hEq ▸ hmem)
      rw [textLoop, hc]
      dsimp only
      rw [if_neg hmne, hlast]
      rw [ih (by simp) (List.nodup_cons.mp hnd).2]

/-- C2 counterexample: with every remote attempt failing and the selected
model "gemini-2.5-pro-preview" (5 deduplicated candidates), the transform-text
wrapper makes 5 attempts — one per candidate — not 3 × 5 = 15 as claimed. -/
theorem c2_counterexample :
    (processTextStage (fun _ => .error "E") .ARABIC "gemini-2.5-pro-preview").2.length = 5 ∧
    (jsSetDedup (FALLBACK_MODELS "gemini-2.5-pro-preview")).length = 5 ∧
    (5 : Nat) ≠ 3 * 5 := by
  refine ⟨by rfl, by rfl, by decide⟩

/-- C2 amended: the transcribe-chunk wrapper tries the deduplicated candidates
[selected, ...fallbacks] in order with exactly 3 attempts per candidate and a
backoff wait of 1s, 2s, 4s after each failed attempt (the 4s wait falling
after the third failure, before the next candidate), making 3 × candidates
attempts in total and propagating the last error; the transform-text wrapper
tries the same deduplicated candidates but makes exactly one attempt per
candidate, with no backoff, and propagates the last error. -/
theorem c2_retry_policies (call3 : String → Nat → Except String String)
    (call1 : String → Except String String) (f3 : String → Nat → String)
    (f1 : String → String) (sel : String) (stage : ProcessingStage)
    (h3 : ∀ m a, call3 m a = .error (f3 m a)) (h1 : ∀ m, call1 m = .error (f1 m))
    (hstage : stage ≠ .RAW) :
    (transcribeSegment call3 sel).attempts = attemptsFor (jsSetDedup (FALLBACK_MODELS sel)) ∧
    (transcribeSegment call3 sel).attempts.length
      = 3 * (jsSetDedup (FALLBACK_MODELS sel)).length ∧
    (transcribeSegment call3 sel).delaysMs = delaysFor (jsSetDedup (FALLBACK_MODELS sel)) ∧
    (transcribeSegment call3 sel).result
      = .error (f3 ((jsSetDedup (FALLBACK_MODELS sel)).getLastD "") 3) ∧
    (processTextStage call1 stage sel).2 = jsSetDedup (FALLBACK_MODELS sel) ∧
    (processTextStage call1 stage sel).1
      = .error (f1 ((jsSetDedup (FALLBACK_MODELS sel)).getLastD "")) := by
  have hne := jsSetDedup_fallback_ne_nil sel
  have hm := modelsLoop_all_fail call3 f3 h3 (jsSetDedup (FALLBACK_MODELS sel)) hne none
  have ht := textLoop_all_fail call1 f1 h1 (jsSetDedup (FALLBACK_MODELS sel)) hne
    (nodup_jsSetDedup _)
  have hts : processTextStage call1 stage sel
      = textLoop call1 ((jsSetDedup (FALLBACK_MODELS sel)).getLastD "")
          (jsSetDedup (FALLBACK_MODELS sel)) := by
    rw [processTextStage, if_neg hstage]
  refine ⟨?_, ?_, ?_, ?_, ?_, ?_⟩
  · rw [transcribeSegment, hm]
  · rw [transcribeSegment, hm]
    exact attemptsFor_length _
  · rw [transcribeSegment, hm]
  · rw [transcribeSegment, hm]
  · rw [hts, ht]
  · rw [hts, ht]

/-- C2 amended witness: all attempts failing with "E", selected model
"gemini-2.5-pro-preview" (5 candidates): 15 transcription attempts, backoff
trace, and 5 single transform attempts, both raising the last error. -/
theorem c2_retry_policies_witness :
    (transcribeSegment (fun _ _ => .error "E") "gemini-2.5-pro-preview").attempts
      = attemptsFor (jsSetDedup (FALLBACK_MODELS "gemini-2.5-pro-preview")) ∧
    (transcribeSegment (fun _ _ => .error "E") "gemini-2.5-pro-preview").attempts.length
      = 3 * (jsSetDedup (FALLBACK_MODELS "gemini-2.5-pro-preview")).length ∧
    (transcribeSegment (fun _ _ => .error "E") "gemini-2.5-pro-preview").delaysMs
      = delaysFor (jsSetDedup (FALLBACK_MODELS "gemini-2.5-pro-preview")) ∧
    (transcribeSegment (fun _ _ => .error "E") "gemini-2.5-pro-preview").result
      = .error "E" ∧
    (processTextStage (fun _ => .error "E") .ARABIC "gemini-2.5-pro-preview").2
      = jsSetDedup (FALLBACK_MODELS "gemini-2.5-pro-preview") ∧
    (processTextStage (fun _ => .error "E") .ARABIC "gemini-2.5-pro-preview").1
      = .error "E" :=
  c2_retry_policies (fun _ _ => .error "E") (fun _ => .error "E")
    (fun _ _ => "E") (fun _ => "E") "gemini-2.5-pro-preview" .ARABIC
    (fun _ _ => rfl) (fun _ => rfl) (by decide)

/-! ### The chunk loop: committed-prefix characterisations -/

lemma afterOk_step (r : Nat → String) (base total : Nat) (live : MediaItem)
    (t : String) (i : Nat) (rest : List Nat) :
    afterOk r base total
      { live with
        processedChunks := i + 1
        progress := round (((i : ℚ) + 1) / (total : ℚ) * 100)
        versions := patchVersion live.versions base (t ++ r i ++ " ") rawProgressName }
      (t ++ r i ++ " ") rest
      = afterOk r base total live t (i :: rest) := by
  cases rest with
  | nil =>
    simp [afterOk, transcriptOf, String.append_empty, String.append_assoc, List.getLastD]
  | cons j rest' =>
    simp [afterOk, transcriptOf, patchVersion_patchVersion, String.append_assoc,
          getLastD_cons_self]

lemma chunkIter_all_ok (responses : Nat → Except String String) (pause : Nat → Bool)
    (r : Nat → String) (base total : Nat) :
    ∀ (l : List Nat) (live : MediaItem) (t : String) (sent : List Nat),
      (∀ i ∈ l, responses i = .ok (r i)) → (∀ i ∈ l, pause i = false) →
      chunkIter responses pause base total l live t sent =
        ⟨afterOk r base total live t l, t ++ transcriptOf r l, sent ++ l, true, none⟩ := by
  intro l
  induction l with
  | nil =>
    intro live t sent _ _
    simp [chunkIter, afterOk, transcriptOf, String.append_empty]
  | cons i rest ih =>
    intro live t sent hresp hpause
    have hp : pause i = false := hpause i (by simp)
    have hr : responses i = .ok (r i) := hresp i (by simp)
    rw [chunkIter, hp, hr]
    dsimp only
    rw [ih _ _ _ (fun j hj => hresp j (by simp [hj])) (fun j hj => hpause j (by simp [hj]))]
    rw [afterOk_step]
    simp [transcriptOf, String.append_assoc]

lemma chunkIter_pauseAt (responses : Nat → Except String String) (pause : Nat → Bool)
    (r : Nat → String) (base total : Nat) (k : Nat) (l2 : List Nat)
    (hpk : pause k = true) :
    ∀ (l1 : List Nat) (live : MediaItem) (t : String) (sent : List Nat),
      (∀ i ∈ l1, responses i = .ok (r i)) → (∀ i ∈ l1, pause i = false) →
      chunkIter responses pause base total (l1 ++ k :: l2) live t sent =
        ⟨{ afterOk r base total live t l1 with status := .paused, error := none },
          t ++ transcriptOf r l1, sent ++ l1, false, none⟩ := by
  intro l1
  induction l1 with
  | nil =>
    intro live t sent _ _
    simp only [List.nil_append]
    rw [chunkIter, hpk]
    simp [afterOk, transcriptOf, String.append_empty]
  | cons i rest ih =>
    intro live t sent hresp hpause
    have hp : pause i = false := hpause i (by simp)
    have hr : responses i = .ok (r i) := hresp i (by simp)
    rw [List.cons_append, chunkIter, hp, hr]
    dsimp only
    rw [ih _ _ _ (fun j hj => hresp j (by simp [hj])) (fun j hj => hpause j (by simp [hj]))]
    rw [afterOk_step]
    simp [transcriptOf, String.append_assoc]

lemma chunkIter_failAt (responses : Nat → Except String String) (pause : Nat → Bool)
    (r : Nat → String) (base total : Nat) (e : Nat) (msg : String) (l2 : List Nat)
    (hpe : pause e = false) (hre : responses e = .error msg) :
    ∀ (l1 : List Nat) (live : MediaItem) (t : String) (sent : List Nat),
      (∀ i ∈ l1, responses i = .ok (r i)) → (∀ i ∈ l1, pause i = false) →
      chunkIter responses pause base total (l1 ++ e :: l2) live t sent =
        ⟨{ afterOk r base total live t l1 with
           progress := round ((e : ℚ) / (total : ℚ) * 100) },
          t ++ transcriptOf r l1, (sent ++ l1) ++ [e], true, some msg⟩ := by
  intro l1
  induction l1 with
  | nil =>
    intro live t sent _ _
    simp only [List.nil_append]
    rw [chunkIter, hpe, hre]
    simp [afterOk, transcriptOf, String.append_empty]
  | cons i rest ih =>
    intro live t sent hresp hpause
    have hp : pause i = false := hpause i (by simp)
    have hr : responses i = .ok (r i) := hresp i (by simp)
    rw [List.cons_append, chunkIter, hp, hr]
    dsimp only
    rw [ih _ _ _ (fun j hj => hresp j (by simp [hj])) (fun j hj => hpause j (by simp [hj]))]
    rw [afterOk_step]
    simp [transcriptOf, String.append_assoc]

lemma chunkIter_userPaused_inv (responses : Nat → Except String String) (pause : Nat → Bool)
    (base total : Nat) :
    ∀ (l : List Nat) (live : MediaItem) (t : String) (sent : List Nat),
      live.error = none →
      (chunkIter responses pause base total l live t sent).completedSuccessfully = false →
      (chunkIter responses pause base total l live t sent).caught = none →
      (chunkIter responses pause base total l live t sent).live.status = .paused ∧
      (chunkIter responses pause base total l live t sent).live.error = none := by
  intro l
  induction l with
  | nil =>
    intro live t sent _ hflag _
    simp [chunkIter] at hflag
  | cons i rest ih =>
    intro live t sent herr hflag hcaught
    by_cases hp : pause i
    · rw [chunkIter, hp]
      simp
    · have hp' : pause i = false := eq_false_of_ne_true hp
      rw [chunkIter, hp'] at hflag hcaught ⊢
      simp only [Bool.false_eq_true, if_false] at hflag hcaught ⊢
      revert hflag hcaught
      cases hr : responses i with
      | error m =>
        dsimp only
        intro hflag hcaught
        simp at hcaught
      | ok ct =>
        dsimp only
        intro hflag hcaught
        exact ih _ _ _ (by simpa using herr) hflag hcaught

/-! ### Outcome classification: pause vs error vs completion -/

lemma runBodyFinish_caught (env : StartEnv) (item : MediaItem) (cd : ℚ)
    (ct base : Nat) (iv : List Version) (res : LoopRes) (m : String)
    (hc : res.caught = some m) :
    runBodyFinish env item cd ct base iv res =
      ⟨{ res.live with
         status := .paused
         error := some (errMessage m)
         progress := item.progress },
       none, res.sent, .raised m⟩ := by
  rw [runBodyFinish, hc]

lemma runBodyFinish_userPaused (env : StartEnv) (item : MediaItem) (cd : ℚ)
    (ct base : Nat) (iv : List Version) (res : LoopRes)
    (hc : res.caught = none) (hf : res.completedSuccessfully = false) :
    runBodyFinish env item cd ct base iv res =
      ⟨res.live, none, res.sent, .userPaused⟩ := by
  rw [runBodyFinish, hc]
  dsimp only
  rw [hf]
  rfl

lemma runBodyFinish_classify (env : StartEnv) (item : MediaItem) (cd : ℚ)
    (ct base : Nat) (iv : List Version) (res : LoopRes)
    (hres : res.completedSuccessfully = false → res.caught = none →
      res.live.status = .paused ∧ res.live.error = none) :
    ((runBodyFinish env item cd ct base iv res).exit = .userPaused →
      (runBodyFinish env item cd ct base iv res).live.error = none ∧
      (runBodyFinish env item cd ct base iv res).live.status = .paused) ∧
    (∀ m, (runBodyFinish env item cd ct base iv res).exit = .raised m →
      (runBodyFinish env item cd ct base iv res).live.error = some (errMessage m) ∧
      (runBodyFinish env item cd ct base iv res).live.status = .paused) ∧
    ((runBodyFinish env item cd ct base iv res).savedItem.isSome →
      (runBodyFinish env item cd ct base iv res).exit = .completedAll) := by
  cases hc : res.caught with
  | some m =>
    rw [runBodyFinish_caught env item cd ct base iv res m hc]
    refine ⟨by simp, ?_, by simp⟩
    intro m' hm'
    simp only [StartOutcome.mk.injEq] at hm' ⊢
    have : m = m' := by
      have := hm'
      simpa [RunExit.raised.injEq] using this
    subst this
    simp
  | none =>
    cases hf : res.completedSuccessfully with
    | false =>
      rw [runBodyFinish_userPaused env item cd ct base iv res hc hf]
      refine ⟨?_, by simp, by simp⟩
      intro _
      have h := hres hf hc
      exact ⟨h.2, h.1⟩
    | true =>
      rw [runBodyFinish, hc]
      dsimp only
      rw [hf]
      refine ⟨by simp, by simp, by simp⟩

lemma chunkLoop_inv (responses : Nat → Except String String) (pause : Nat → Bool)
    (base total i : Nat) (live : MediaItem) (t : String) (sent : List Nat)
    (herr : live.error = none) :
    (chunkLoop responses pause base total i live t sent).completedSuccessfully = false →
    (chunkLoop responses pause base total i live t sent).caught = none →
    (chunkLoop responses pause base total i live t sent).live.status = .paused ∧
    (chunkLoop responses pause base total i live t sent).live.error = none := by
  intro hf hc
  exact chunkIter_userPaused_inv responses pause base total _ live t sent herr hf hc

lemma runBody_classify (env : StartEnv) (item live : MediaItem) (si base : Nat)
    (t0 : String) (iv : List Version) (hle : live.error = none) :
    ((runBody env item live si base t0 iv).exit = .userPaused →
      (runBody env item live si base t0 iv).live.error = none ∧
      (runBody env item live si base t0 iv).live.status = .paused) ∧
    (∀ m, (runBody env item live si base t0 iv).exit = .raised m →
      (runBody env item live si base t0 iv).live.error = some (errMessage m) ∧
      (runBody env item live si base t0 iv).live.status = .paused) ∧
    ((runBody env item live si base t0 iv).savedItem.isSome →
      (runBody env item live si base t0 iv).exit = .completedAll) := by
  rw [runBody]
  apply runBodyFinish_classify
  apply chunkLoop_inv
  by_cases hd : si = 0 ∨ item.duration = 0
  · rw [if_pos hd]
    exact hle
  · rw [if_neg hd]
    exact hle

lemma runBody_pause_error (env : StartEnv) (item live : MediaItem) (si base : Nat)
    (t0 : String) (iv : List Version) (hle : live.error = none) :
    ((runBody env item live si base t0 iv).exit = .userPaused →
      (runBody env item live si base t0 iv).live.error = none ∧
      (runBody env item live si base t0 iv).live.status = .paused) ∧
    (∀ m, (runBody env item live si base t0 iv).exit = .raised m →
      (runBody env item live si base t0 iv).live.error = some (errMessage m) ∧
      (runBody env item live si base t0 iv).live.status = .paused) :=
  ⟨(runBody_classify env item live si base t0 iv hle).1,
   (runBody_classify env item live si base t0 iv hle).2.1⟩

/-- C8: a user-triggered pause (loop exit .userPaused: live status read as
paused with no error at the top of an iteration) leaves lastError unset,
while every remote-failure exit (.raised msg) sets status paused and records
lastError = errMessage msg. -/
theorem c8_pause_vs_error (env : StartEnv) (live item : MediaItem) (b : Bool) :
    ((startTranscription env live item b).exit = .userPaused →
      (startTranscription env live item b).live.error = none ∧
      (startTranscription env live item b).live.status = .paused) ∧
    (∀ m, (startTranscription env live item b).exit = .raised m →
      (startTranscription env live item b).live.error = some (errMessage m) ∧
      (startTranscription env live item b).live.status = .paused) := by
  rw [startTranscription]
  by_cases ha : ¬ env.apiKey
  · rw [if_pos ha]
    exact ⟨by simp, fun m => by simp⟩
  · rw [if_neg ha]
    by_cases hf : ¬ item.hasFile
    · rw [if_pos hf]
      exact ⟨by simp, fun m => by simp⟩
    · rw [if_neg hf]
      dsimp only
      by_cases hrv : b ∧ item.versions ≠ []
      · rw [if_pos hrv]
        cases hfind : item.versions.find? (fun v => v.stage == .RAW) with
        | some raw =>
          try dsimp only
          exact runBody_pause_error env item _ _ _ _ _ (by simp)
        | none =>
          try dsimp only
          exact runBody_pause_error env item _ _ _ _ _ (by simp [addVersionToItem])
      · rw [if_neg hrv]
        by_cases hrs : item.processedChunks > 0 ∧ ¬ env.confirmContinue
        · rw [if_pos hrs, freshRun]
          try dsimp only
          exact runBody_pause_error _ _ _ _ _ _ _ (by simp [addVersionToItem])
        · rw [if_neg hrs]
          by_cases h0 : item.processedChunks = 0
          · rw [if_pos h0, freshRun]
            try dsimp only
            exact runBody_pause_error _ _ _ _ _ _ _ (by simp [addVersionToItem])
          · rw [if_neg h0]
            cases hfind : item.versions.find? (fun v => v.stage == .RAW) with
            | some raw =>
              try dsimp only
              exact runBody_pause_error env item _ _ _ _ _ (by simp)
            | none =>
              try dsimp only
              exact runBody_pause_error env item _ _ _ _ _ (by simp)

lemma numWindows_eval240 : numWindows 240 = 1 := by
  rw [numWindows, show (240 : ℚ) / CHUNK_DURATION = ((1 : ℤ) : ℚ) by
        norm_num [CHUNK_DURATION],
      Int.ceil_intCast]
  rfl

lemma numWindows_eval480 : numWindows 480 = 2 := by
  rw [numWindows, show (480 : ℚ) / CHUNK_DURATION = ((2 : ℤ) : ℚ) by
        norm_num [CHUNK_DURATION],
      Int.ceil_intCast]
  rfl

lemma numWindows_eval500 : numWindows 500 = 3 := by
  rw [numWindows, show (⌈(500 : ℚ) / CHUNK_DURATION⌉ : ℤ) = 3 by
        rw [CHUNK_DURATION, Int.ceil_eq_iff] <;> norm_num]
  rfl

/-- C8 witness: a run interrupted by the external pause signal at chunk 0
ends paused with no lastError. -/
theorem c8_pause_vs_error_witness :
    (startTranscription ⟨true, true, fun _ => .ok "w", fun _ => true, 7, 8, 5, 240⟩
      ⟨1, true, 0, .idle, 0, none, [], none, 0, 0⟩
      ⟨1, true, 0, .idle, 0, none, [], none, 0, 0⟩ false).live.error = none ∧
    (startTranscription ⟨true, true, fun _ => .ok "w", fun _ => true, 7, 8, 5, 240⟩
      ⟨1, true, 0, .idle, 0, none, [], none, 0, 0⟩
      ⟨1, true, 0, .idle, 0, none, [], none, 0, 0⟩ false).live.status = .paused :=
  (c8_pause_vs_error ⟨true, true, fun _ => .ok "w", fun _ => true, 7, 8, 5, 240⟩
      ⟨1, true, 0, .idle, 0, none, [], none, 0, 0⟩
      ⟨1, true, 0, .idle, 0, none, [], none, 0, 0⟩ false).1
    (by simp [startTranscription, freshRun, runBody, runBodyFinish, chunkLoop, chunkIter,
              addVersionToItem, numWindows_eval240, List.range'])

lemma range'_split (e n : Nat) (h : e ≤ n) :
    List.range' 0 n = List.range' 0 e ++ List.range' e (n - e) := by
  have h2 := List.range'_append 0 e (n - e) 1
  simp only [Nat.zero_add, Nat.one_mul] at h2
  calc List.range' 0 n = List.range' 0 (n - e + e) := by congr 1; omega
    _ = List.range' 0 e ++ List.range' e (n - e) := h2.symm

lemma range'_split_mid (e n : Nat) (h : e < n) :
    List.range' 0 n = List.range' 0 e ++ e :: List.range' (e + 1) (n - e - 1) := by
  obtain ⟨m, hm⟩ : ∃ m, n - e = m + 1 := ⟨n - e - 1, by omega⟩
  rw [range'_split e n (le_of_lt h), hm, range'_cons_one]
  simp

/-- Every startTranscription invocation either returns the untouched no-run
outcome or the outcome of runBody on a live state whose error is cleared. -/
lemma startTranscription_elim (P : StartOutcome → Prop) (env : StartEnv)
    (live item : MediaItem) (b : Bool)
    (h1 : P ⟨live, none, [], .notRun⟩)
    (h2 : ∀ (env' : StartEnv) (it lv : MediaItem) (si base : Nat) (t0 : String)
      (iv : List Version), lv.error = none → P (runBody env' it lv si base t0 iv)) :
    P (startTranscription env live item b) := by
  rw [startTranscription]
  by_cases ha : ¬ env.apiKey
  · rw [if_pos ha]; exact h1
  · rw [if_neg ha]
    by_cases hf : ¬ item.hasFile
    · rw [if_pos hf]; exact h1
    · rw [if_neg hf]
      dsimp only
      by_cases hrv : b ∧ item.versions ≠ []
      · rw [if_pos hrv]
        cases item.versions.find? (fun v => v.stage == .RAW) with
        | some raw => exact h2 _ _ _ _ _ _ _ (by simp)
        | none => exact h2 _ _ _ _ _ _ _ (by simp [addVersionToItem])
      · rw [if_neg hrv]
        by_cases hrs : item.processedChunks > 0 ∧ ¬ env.confirmContinue
        · rw [if_pos hrs, freshRun]
          exact h2 _ _ _ _ _ _ _ (by simp [addVersionToItem])
        · rw [if_neg hrs]
          by_cases h0 : item.processedChunks = 0
          · rw [if_pos h0, freshRun]
            exact h2 _ _ _ _ _ _ _ (by simp [addVersionToItem])
          · rw [if_neg h0]
            cases item.versions.find? (fun v => v.stage == .RAW) with
            | some raw => exact h2 _ _ _ _ _ _ _ (by simp)
            | none => exact h2 _ _ _ _ _ _ _ (by simp)

lemma runBodyFinish_saved (env : StartEnv) (item : MediaItem) (cd : ℚ)
    (ct base : Nat) (iv : List Version) (res : LoopRes) :
    (runBodyFinish env item cd ct base iv res).savedItem.isSome →
    (runBodyFinish env item cd ct base iv res).exit = .completedAll := by
  cases hc : res.caught with
  | some m =>
    rw [runBodyFinish_caught env item cd ct base iv res m hc]
    simp
  | none =>
    cases hf : res.completedSuccessfully with
    | false =>
      rw [runBodyFinish_userPaused env item cd ct base iv res hc hf]
      simp
    | true =>
      rw [runBodyFinish, hc]
      dsimp only
      rw [hf]
      simp

lemma startTranscription_saved (env : StartEnv) (live item : MediaItem) (b : Bool) :
    (startTranscription env live item b).savedItem.isSome →
    (startTranscription env live item b).exit = .completedAll := by
  apply startTranscription_elim
    (P := fun o => o.savedItem.isSome → o.exit = .completedAll)
  · simp
  · intro env' it lv si base t0 iv _
    rw [runBody]
    exact runBodyFinish_saved _ _ _ _ _ _ _

lemma afterOk_range'_succ (r : Nat → String) (base total : Nat) (live : MediaItem)
    (t : String) (k : Nat) :
    afterOk r base total live t (List.range' 0 (k + 1)) =
      { live with
        processedChunks := k + 1
        progress := round (((k : ℚ) + 1) / (total : ℚ) * 100)
        versions := patchVersion live.versions base
          (t ++ transcriptOf r (List.range' 0 (k + 1))) rawProgressName } := by
  have hlast : (List.range' 0 (k + 1)).getLastD 0 = k := by
    have := getLastD_range' 0 k 0
    simpa using this
  rw [range'_cons_one] at hlast ⊢
  rw [afterOk]
  rw [hlast]

lemma runBody_zero_start (env : StartEnv) (item live : MediaItem) (base : Nat)
    (t0 : String) (iv : List Version) (hn0 : numWindows env.decodedDuration ≠ 0) :
    runBody env item live 0 base t0 iv =
      runBodyFinish env item env.decodedDuration (numWindows env.decodedDuration) base iv
        (chunkLoop env.responses env.pause base (numWindows env.decodedDuration) 0
          { live with duration := env.decodedDuration
                      totalChunks := numWindows env.decodedDuration } t0 []) := by
  rw [runBody]
  rw [if_pos (Or.inl rfl), if_pos (Or.inl rfl), if_pos (Or.inl rfl), if_neg hn0]

lemma runBody_nonzero_start (env : StartEnv) (item live : MediaItem) (si base : Nat)
    (t0 : String) (iv : List Version) (hsi : si ≠ 0) (hd : item.duration ≠ 0)
    (ht : item.totalChunks ≠ 0) :
    runBody env item live si base t0 iv =
      runBodyFinish env item item.duration item.totalChunks base iv
        (chunkLoop env.responses env.pause base item.totalChunks si live t0 []) := by
  rw [runBody]
  have hc : ¬ (si = 0 ∨ item.duration = 0) := by tauto
  rw [if_neg hc, if_neg hc, if_neg hc, if_neg ht]

/-- C5: in a fresh run (no prior versions, processedChunks 0) whose chunks
before `e` succeed and whose chunk `e` fails after the adapter's own retries,
the loop stops with processedChunks still e, the RAW version keeps the
checkpointed transcript of chunks 0..e−1, the status becomes paused (not
error), lastError records the failure message, nothing is saved to durable
storage on this path — and, in general, a save is triggered only when the run
exits completed. -/
theorem c5_remote_failure_pauses
    (responses : Nat → Except String String) (r : Nat → String) (msg : String)
    (e fid fid2 now iid tc : Nat) (c : Bool) (d dur0 : ℚ) (st : Status)
    (pg : ℤ) (cvi : Option Nat)
    (he : e < numWindows d)
    (hok : ∀ j, j < e → responses j = .ok (r j))
    (herr : responses e = .error msg) :
    ((startTranscription ⟨true, c, responses, fun _ => false, fid, fid2, now, d⟩
        ⟨iid, true, dur0, st, pg, cvi, [], none, 0, tc⟩
        ⟨iid, true, dur0, st, pg, cvi, [], none, 0, tc⟩ false).live.status = .paused ∧
     (startTranscription ⟨true, c, responses, fun _ => false, fid, fid2, now, d⟩
        ⟨iid, true, dur0, st, pg, cvi, [], none, 0, tc⟩
        ⟨iid, true, dur0, st, pg, cvi, [], none, 0, tc⟩ false).live.error
        = some (errMessage msg) ∧
     (startTranscription ⟨true, c, responses, fun _ => false, fid, fid2, now, d⟩
        ⟨iid, true, dur0, st, pg, cvi, [], none, 0, tc⟩
        ⟨iid, true, dur0, st, pg, cvi, [], none, 0, tc⟩ false).live.processedChunks = e ∧
     getRawContent (startTranscription ⟨true, c, responses, fun _ => false, fid, fid2, now, d⟩
        ⟨iid, true, dur0, st, pg, cvi, [], none, 0, tc⟩
        ⟨iid, true, dur0, st, pg, cvi, [], none, 0, tc⟩ false).live
        = some (transcriptOf r (List.range' 0 e)) ∧
     (startTranscription ⟨true, c, responses, fun _ => false, fid, fid2, now, d⟩
        ⟨iid, true, dur0, st, pg, cvi, [], none, 0, tc⟩
        ⟨iid, true, dur0, st, pg, cvi, [], none, 0, tc⟩ false).savedItem = none ∧
     (startTranscription ⟨true, c, responses, fun _ => false, fid, fid2, now, d⟩
        ⟨iid, true, dur0, st, pg, cvi, [], none, 0, tc⟩
        ⟨iid, true, dur0, st, pg, cvi, [], none, 0, tc⟩ false).sent
        = List.range' 0 e ++ [e] ∧
     (startTranscription ⟨true, c, responses, fun _ => false, fid, fid2, now, d⟩
        ⟨iid, true, dur0, st, pg, cvi, [], none, 0, tc⟩
        ⟨iid, true, dur0, st, pg, cvi, [], none, 0, tc⟩ false).exit = .raised msg) ∧
    (∀ (env' : StartEnv) (live' item' : MediaItem) (b : Bool),
      (startTranscription env' live' item' b).savedItem.isSome →
      (startTranscription env' live' item' b).exit = .completedAll) := by
  have hn0 : numWindows d ≠ 0 := by omega
  have hres := chunkIter_failAt responses (fun _ => false) r fid (numWindows d) e msg
    (List.range' (e + 1) (numWindows d - e - 1)) rfl herr (List.range' 0 e)
    ⟨iid, true, d, .processing, pg, some fid,
      [⟨fid, .RAW, rawCreatingName, "", none, now, none⟩], none, 0, numWindows d⟩
    "" [] (fun i hi => hok i (by simpa using hi)) (fun i _ => rfl)
  have houtcome : startTranscription ⟨true, c, responses, fun _ => false, fid, fid2, now, d⟩
      ⟨iid, true, dur0, st, pg, cvi, [], none, 0, tc⟩
      ⟨iid, true, dur0, st, pg, cvi, [], none, 0, tc⟩ false =
      ⟨{ afterOk r fid (numWindows d)
           ⟨iid, true, d, .processing, pg, some fid,
             [⟨fid, .RAW, rawCreatingName, "", none, now, none⟩], none, 0, numWindows d⟩
           "" (List.range' 0 e) with
         status := .paused
         error := some (errMessage msg)
         progress := pg },
       none, ([] ++ List.range' 0 e) ++ [e], .raised msg⟩ := by
    rw [startTranscription]
    rw [if_neg (by simp), if_neg (by simp)]
    dsimp only
    rw [if_neg (by simp), if_neg (by simp), if_pos rfl, freshRun]
    have haddv : addVersionToItem ⟨iid, true, dur0, .processing, pg, cvi, [], none, 0, tc⟩
        ⟨fid, .RAW, rawCreatingName, "", none, now, none⟩ true =
        ⟨iid, true, dur0, .processing, pg, some fid,
          [⟨fid, .RAW, rawCreatingName, "", none, now, none⟩], none, 0, tc⟩ := by
      simp [addVersionToItem]
    dsimp only
    rw [haddv, runBody_zero_start _ _ _ _ _ _ hn0]
    dsimp only
    rw [chunkLoop, Nat.sub_zero, range'_split_mid e (numWindows d) he, hres,
        runBodyFinish_caught _ _ _ _ _ _ _ msg rfl]
  refine ⟨⟨?_, ?_, ?_, ?_, ?_, ?_, ?_⟩,
    fun env' live' item' b => startTranscription_saved env' live' item' b⟩
  · rw [houtcome]
  · rw [houtcome]
  · rw [houtcome]
    show (afterOk r fid (numWindows d) _ "" (List.range' 0 e)).processedChunks = e
    cases e with
    | zero => simp [afterOk, List.range']
    | succ k => rw [afterOk_range'_succ]
  · rw [houtcome]
    show (getRawContent { afterOk r fid (numWindows d)
        ⟨iid, true, d, .processing, pg, some fid,
          [⟨fid, .RAW, rawCreatingName, "", none, now, none⟩], none, 0, numWindows d⟩
        "" (List.range' 0 e) with
      status := Status.paused
      error := some (errMessage msg)
      progress := pg }) = some (transcriptOf r (List.range' 0 e))
    cases e with
    | zero => simp [afterOk, List.range', getRawContent, transcriptOf]
    | succ k =>
      rw [getRawContent]
      have hvs : ({ afterOk r fid (numWindows d)
          ⟨iid, true, d, .processing, pg, some fid,
            [⟨fid, .RAW, rawCreatingName, "", none, now, none⟩], none, 0, numWindows d⟩
          "" (List.range' 0 (k + 1)) with
        status := Status.paused
        error := some (errMessage msg)
        progress := pg } : MediaItem).versions =
        [⟨fid, .RAW, rawProgressName, transcriptOf r (List.range' 0 (k + 1)),
          none, now, none⟩] := by
        rw [afterOk_range'_succ]
        simp [patchVersion, String.empty_append]
      rw [hvs]
      simp
  · rw [houtcome]
  · rw [houtcome]
    simp
  · rw [houtcome]

/-- C5 witness: d = 500 (3 chunks), chunk 0 succeeds, chunk 1 fails with
"boom": run pauses with processedChunks 1, checkpointed content kept, no
save. -/
theorem c5_remote_failure_pauses_witness :
    (1 < numWindows 500) ∧
    ((startTranscription ⟨true, true, (fun j => if j = 1 then .error "boom" else .ok "w"),
        fun _ => false, 7, 8, 5, 500⟩
      ⟨1, true, 0, .idle, 0, none, [], none, 0, 0⟩
      ⟨1, true, 0, .idle, 0, none, [], none, 0, 0⟩ false).live.status = .paused ∧
     (startTranscription ⟨true, true, (fun j => if j = 1 then .error "boom" else .ok "w"),
        fun _ => false, 7, 8, 5, 500⟩
      ⟨1, true, 0, .idle, 0, none, [], none, 0, 0⟩
      ⟨1, true, 0, .idle, 0, none, [], none, 0, 0⟩ false).live.error
        = some (errMessage "boom") ∧
     (startTranscription ⟨true, true, (fun j => if j = 1 then .error "boom" else .ok "w"),
        fun _ => false, 7, 8, 5, 500⟩
      ⟨1, true, 0, .idle, 0, none, [], none, 0, 0⟩
      ⟨1, true, 0, .idle, 0, none, [], none, 0, 0⟩ false).live.processedChunks = 1 ∧
     getRawContent (startTranscription ⟨true, true,
        (fun j => if j = 1 then .error "boom" else .ok "w"),
        fun _ => false, 7, 8, 5, 500⟩
      ⟨1, true, 0, .idle, 0, none, [], none, 0, 0⟩
      ⟨1, true, 0, .idle, 0, none, [], none, 0, 0⟩ false).live
        = some (transcriptOf (fun _ => "w") (List.range' 0 1)) ∧
     (startTranscription ⟨true, true, (fun j => if j = 1 then .error "boom" else .ok "w"),
        fun _ => false, 7, 8, 5, 500⟩
      ⟨1, true, 0, .idle, 0, none, [], none, 0, 0⟩
      ⟨1, true, 0, .idle, 0, none, [], none, 0, 0⟩ false).savedItem = none) := by
  have hhe : 1 < numWindows 500 := by rw [numWindows_eval500]; omega
  have H := c5_remote_failure_pauses
    (fun j => if j = 1 then .error "boom" else .ok "w") (fun _ => "w") "boom"
    1 7 8 5 1 0 true 500 0 .idle 0 none hhe
    (fun j hj => by
      have hj0 : j = 0 := by omega
      subst hj0
      rfl)
    rfl
  exact ⟨hhe, H.1.1, H.1.2.1, H.1.2.2.1, H.1.2.2.2.1, H.1.2.2.2.2.1⟩

lemma transcriptOf_append (r : Nat → String) (l1 l2 : List Nat) :
    transcriptOf r (l1 ++ l2) = transcriptOf r l1 ++ transcriptOf r l2 := by
  induction l1 with
  | nil => simp [transcriptOf, String.empty_append]
  | cons i rest ih => simp [transcriptOf, ih, String.append_assoc]

lemma afterOk_range'_general (r : Nat → String) (base total : Nat) (live : MediaItem)
    (t : String) (s m : Nat) :
    afterOk r base total live t (List.range' s (m + 1)) =
      { live with
        processedChunks := s + m + 1
        progress := round ((((s + m : Nat) : ℚ) + 1) / (total : ℚ) * 100)
        versions := patchVersion live.versions base
          (t ++ transcriptOf r (List.range' s (m + 1))) rawProgressName } := by
  have hlast : (List.range' s (m + 1)).getLastD 0 = s + m := getLastD_range' s m 0
  rw [range'_cons_one] at hlast ⊢
  rw [afterOk, hlast]

lemma runBodyFinish_completed (env : StartEnv) (item : MediaItem) (cd : ℚ)
    (ct base : Nat) (iv : List Version) (res : LoopRes)
    (hc : res.caught = none) (hf : res.completedSuccessfully = true) :
    runBodyFinish env item cd ct base iv res =
      ⟨{ res.live with
         status := .completed
         progress := 100
         versions := patchName res.live.versions base rawDoneName },
       some { item with
              status := .completed
              progress := 100
              duration := cd
              totalChunks := ct
              processedChunks := ct
              versions := (if (patchVersion iv base res.fullTranscript rawDoneName).any
                    (fun v => v.id == base) then
                  patchVersion iv base res.fullTranscript rawDoneName
                else patchVersion iv base res.fullTranscript rawDoneName ++
                  [⟨base, .RAW, rawDoneName, res.fullTranscript, none, env.now, none⟩])
              currentVersionId := some base },
       res.sent, .completedAll⟩ := by
  rw [runBodyFinish, hc]
  dsimp only
  rw [hf]
  rfl

lemma numWindows_zero : numWindows 0 = 0 := by
  simp [numWindows]

lemma duration_ne_zero_of_numWindows {d : ℚ} (hn : numWindows d ≠ 0) : d ≠ 0 := by
  intro h0
  rw [h0, numWindows_zero] at hn
  exact hn rfl

lemma c1_run1 (r : Nat → String) (c : Bool) (f1 f2 now iid tc : Nat) (d dur0 : ℚ)
    (st : Status) (pg : ℤ) (cvi : Option Nat) (kk : Nat)
    (hkn : kk + 1 < numWindows d) :
    startTranscription ⟨true, c, (fun j => .ok (r j)), (fun j => j == kk + 1), f1, f2, now, d⟩
      ⟨iid, true, dur0, st, pg, cvi, [], none, 0, tc⟩
      ⟨iid, true, dur0, st, pg, cvi, [], none, 0, tc⟩ false =
      ⟨⟨iid, true, d, .paused, round (((kk : ℚ) + 1) / (numWindows d : ℚ) * 100), some f1,
         [⟨f1, .RAW, rawProgressName, transcriptOf r (List.range' 0 (kk + 1)), none, now, none⟩],
         none, kk + 1, numWindows d⟩,
       none, List.range' 0 (kk + 1), .userPaused⟩ := by
  have hn0 : numWindows d ≠ 0 := by omega
  rw [startTranscription]
  rw [if_neg (by simp), if_neg (by simp)]
  dsimp only
  rw [if_neg (by simp), if_neg (by simp), if_pos rfl, freshRun]
  dsimp only
  have haddv : addVersionToItem ⟨iid, true, dur0, .processing, pg, cvi, [], none, 0, tc⟩
      ⟨f1, .RAW, rawCreatingName, "", none, now, none⟩ true =
      ⟨iid, true, dur0, .processing, pg, some f1,
        [⟨f1, .RAW, rawCreatingName, "", none, now, none⟩], none, 0, tc⟩ := by
    simp [addVersionToItem]
  rw [haddv, runBody_zero_start _ _ _ _ _ _ hn0]
  dsimp only
  rw [chunkLoop, Nat.sub_zero, range'_split_mid (kk + 1) (numWindows d) hkn]
  rw [chunkIter_pauseAt (fun j => .ok (r j)) (fun j => j == kk + 1) r f1 (numWindows d)
        (kk + 1) (List.range' (kk + 1 + 1) (numWindows d - (kk + 1) - 1)) (by simp)
        (List.range' 0 (kk + 1))
        ⟨iid, true, d, .processing, pg, some f1,
          [⟨f1, .RAW, rawCreatingName, "", none, now, none⟩], none, 0, numWindows d⟩
        "" [] (fun i _ => rfl)
        (fun i hi => by
          have hik : i < kk + 1 := by simpa using hi
          simpa using Nat.ne_of_lt hik)]
  rw [runBodyFinish_userPaused _ _ _ _ _ _ _ rfl rfl]
  rw [afterOk_range'_succ]
  simp [patchVersion, String.empty_append]

lemma c1_run2 (r : Nat → String) (c : Bool) (fa fb now2 iid f1 ts : Nat) (d : ℚ)
    (stP : Status) (prog : ℤ) (cv : Option Nat) (nm T : String) (pu : Option String)
    (kk : Nat) (hkn : kk + 1 < numWindows d) :
    startTranscription ⟨true, c, (fun j => .ok (r j)), (fun _ => false), fa, fb, now2, d⟩
      ⟨iid, true, d, stP, prog, cv, [⟨f1, .RAW, nm, T, none, ts, pu⟩], none,
        kk + 1, numWindows d⟩
      ⟨iid, true, d, stP, prog, cv, [⟨f1, .RAW, nm, T, none, ts, pu⟩], none,
        kk + 1, numWindows d⟩ true =
      ⟨⟨iid, true, d, .completed, 100, cv,
         [⟨f1, .RAW, rawDoneName,
           T ++ transcriptOf r (List.range' (kk + 1) (numWindows d - (kk + 1))),
           none, ts, pu⟩],
         none, numWindows d, numWindows d⟩,
       some ⟨iid, true, d, .completed, 100, some f1,
         [⟨f1, .RAW, rawDoneName,
           T ++ transcriptOf r (List.range' (kk + 1) (numWindows d - (kk + 1))),
           none, ts, pu⟩],
         none, numWindows d, numWindows d⟩,
       List.range' (kk + 1) (numWindows d - (kk + 1)), .completedAll⟩ := by
  have hn0 : numWindows d ≠ 0 := by omega
  have hd0 : d ≠ 0 := duration_ne_zero_of_numWindows hn0
  obtain ⟨m, hm⟩ : ∃ m, numWindows d - (kk + 1) = m + 1 :=
    ⟨numWindows d - kk - 2, by omega⟩
  rw [startTranscription]
  rw [if_neg (by simp), if_neg (by simp)]
  dsimp only
  rw [if_pos (by simp)]
  have hfind : ([⟨f1, .RAW, nm, T, none, ts, pu⟩] : List Version).find?
      (fun v => v.stage == .RAW) = some ⟨f1, .RAW, nm, T, none, ts, pu⟩ := rfl
  rw [hfind]
  dsimp only
  rw [runBody_nonzero_start _ _ _ _ _ _ _ (by omega) hd0 hn0]
  dsimp only
  rw [chunkLoop]
  rw [hm]
  rw [chunkIter_all_ok (fun j => .ok (r j)) (fun _ => false) r f1 (numWindows d)
        (List.range' (kk + 1) (m + 1))
        ⟨iid, true, d, .processing, prog, cv, [⟨f1, .RAW, nm, T, none, ts, pu⟩], none,
          kk + 1, numWindows d⟩
        T [] (fun i _ => rfl) (fun i _ => rfl)]
  rw [runBodyFinish_completed _ _ _ _ _ _ _ rfl rfl]
  rw [afterOk_range'_general]
  have harith : kk + 1 + m + 1 = numWindows d := by omega
  simp [patchVersion, patchName, harith]

lemma c1_run_full (r : Nat → String) (c : Bool) (f1 f2 now iid tc : Nat) (d dur0 : ℚ)
    (st : Status) (pg : ℤ) (cvi : Option Nat) (hn0 : numWindows d ≠ 0) :
    startTranscription ⟨true, c, (fun j => .ok (r j)), (fun _ => false), f1, f2, now, d⟩
      ⟨iid, true, dur0, st, pg, cvi, [], none, 0, tc⟩
      ⟨iid, true, dur0, st, pg, cvi, [], none, 0, tc⟩ false =
      ⟨⟨iid, true, d, .completed, 100, some f1,
         [⟨f1, .RAW, rawDoneName, transcriptOf r (List.range' 0 (numWindows d)),
           none, now, none⟩],
         none, numWindows d, numWindows d⟩,
       some ⟨iid, true, d, .completed, 100, some f1,
         [⟨f1, .RAW, rawDoneName, transcriptOf r (List.range' 0 (numWindows d)),
           none, now, none⟩],
         none, numWindows d, numWindows d⟩,
       List.range' 0 (numWindows d), .completedAll⟩ := by
  obtain ⟨m, hm⟩ : ∃ m, numWindows d = m + 1 := ⟨numWindows d - 1, by omega⟩
  rw [startTranscription]
  rw [if_neg (by simp), if_neg (by simp)]
  dsimp only
  rw [if_neg (by simp), if_neg (by simp), if_pos rfl, freshRun]
  dsimp only
  have haddv : addVersionToItem ⟨iid, true, dur0, .processing, pg, cvi, [], none, 0, tc⟩
      ⟨f1, .RAW, rawCreatingName, "", none, now, none⟩ true =
      ⟨iid, true, dur0, .processing, pg, some f1,
        [⟨f1, .RAW, rawCreatingName, "", none, now, none⟩], none, 0, tc⟩ := by
    simp [addVersionToItem]
  rw [haddv, runBody_zero_start _ _ _ _ _ _ hn0]
  dsimp only
  rw [chunkLoop, Nat.sub_zero, hm]
  rw [chunkIter_all_ok (fun j => .ok (r j)) (fun _ => false) r f1 (m + 1)
        (List.range' 0 (m + 1))
        ⟨iid, true, d, .processing, pg, some f1,
          [⟨f1, .RAW, rawCreatingName, "", none, now, none⟩], none, 0, m + 1⟩
        "" [] (fun i _ => rfl) (fun i _ => rfl)]
  rw [runBodyFinish_completed _ _ _ _ _ _ _ rfl rfl]
  rw [afterOk_range'_general]
  simp [patchVersion, patchName, String.empty_append, hm]

/-- C1: with all-succeeding per-chunk responses, a run interrupted by the
pause signal at chunk k = kk+1 commits exactly chunks 0..k−1 (processedChunks
k, RAW content = their space-separated concatenation); re-invoking start with
resume = true on the resulting live item re-sends only chunks k..n−1, seeds
the accumulator from the existing RAW content, and the final RAW content
equals the one an uninterrupted run over the same responses produces. -/
theorem c1_resume_equals_uninterrupted
    (r : Nat → String) (c c2 : Bool) (f1 f2 fa fb now now2 iid tc : Nat)
    (d dur0 : ℚ) (st : Status) (pg : ℤ) (cvi : Option Nat) (kk : Nat)
    (hkn : kk + 1 < numWindows d) :
    (startTranscription ⟨true, c, (fun j => .ok (r j)), (fun j => j == kk + 1),
        f1, f2, now, d⟩
      ⟨iid, true, dur0, st, pg, cvi, [], none, 0, tc⟩
      ⟨iid, true, dur0, st, pg, cvi, [], none, 0, tc⟩ false).live.processedChunks
      = kk + 1 ∧
    (startTranscription ⟨true, c, (fun j => .ok (r j)), (fun j => j == kk + 1),
        f1, f2, now, d⟩
      ⟨iid, true, dur0, st, pg, cvi, [], none, 0, tc⟩
      ⟨iid, true, dur0, st, pg, cvi, [], none, 0, tc⟩ false).live.status = .paused ∧
    getRawContent (startTranscription ⟨true, c, (fun j => .ok (r j)),
        (fun j => j == kk + 1), f1, f2, now, d⟩
      ⟨iid, true, dur0, st, pg, cvi, [], none, 0, tc⟩
      ⟨iid, true, dur0, st, pg, cvi, [], none, 0, tc⟩ false).live
      = some (transcriptOf r (List.range' 0 (kk + 1))) ∧
    (startTranscription ⟨true, c2, (fun j => .ok (r j)), (fun _ => false),
        fa, fb, now2, d⟩
      (startTranscription ⟨true, c, (fun j => .ok (r j)), (fun j => j == kk + 1),
          f1, f2, now, d⟩
        ⟨iid, true, dur0, st, pg, cvi, [], none, 0, tc⟩
        ⟨iid, true, dur0, st, pg, cvi, [], none, 0, tc⟩ false).live
      (startTranscription ⟨true, c, (fun j => .ok (r j)), (fun j => j == kk + 1),
          f1, f2, now, d⟩
        ⟨iid, true, dur0, st, pg, cvi, [], none, 0, tc⟩
        ⟨iid, true, dur0, st, pg, cvi, [], none, 0, tc⟩ false).live true).sent
      = List.range' (kk + 1) (numWindows d - (kk + 1)) ∧
    (startTranscription ⟨true, c2, (fun j => .ok (r j)), (fun _ => false),
        fa, fb, now2, d⟩
      (startTranscription ⟨true, c, (fun j => .ok (r j)), (fun j => j == kk + 1),
          f1, f2, now, d⟩
        ⟨iid, true, dur0, st, pg, cvi, [], none, 0, tc⟩
        ⟨iid, true, dur0, st, pg, cvi, [], none, 0, tc⟩ false).live
      (startTranscription ⟨true, c, (fun j => .ok (r j)), (fun j => j == kk + 1),
          f1, f2, now, d⟩
        ⟨iid, true, dur0, st, pg, cvi, [], none, 0, tc⟩
        ⟨iid, true, dur0, st, pg, cvi, [], none, 0, tc⟩ false).live true).live.status
      = .completed ∧
    getRawContent (startTranscription ⟨true, c2, (fun j => .ok (r j)), (fun _ => false),
        fa, fb, now2, d⟩
      (startTranscription ⟨true, c, (fun j => .ok (r j)), (fun j => j == kk + 1),
          f1, f2, now, d⟩
        ⟨iid, true, dur0, st, pg, cvi, [], none, 0, tc⟩
        ⟨iid, true, dur0, st, pg, cvi, [], none, 0, tc⟩ false).live
      (startTranscription ⟨true, c, (fun j => .ok (r j)), (fun j => j == kk + 1),
          f1, f2, now, d⟩
        ⟨iid, true, dur0, st, pg, cvi, [], none, 0, tc⟩
        ⟨iid, true, dur0, st, pg, cvi, [], none, 0, tc⟩ false).live true).live
      = some (transcriptOf r (List.range' 0 (numWindows d))) ∧
    (startTranscription ⟨true, c2, (fun j => .ok (r j)), (fun _ => false),
        fa, fb, now2, d⟩
      ⟨iid, true, dur0, st, pg, cvi, [], none, 0, tc⟩
      ⟨iid, true, dur0, st, pg, cvi, [], none, 0, tc⟩ false).sent
      = List.range' 0 (numWindows d) ∧
    (startTranscription ⟨true, c2, (fun j => .ok (r j)), (fun _ => false),
        fa, fb, now2, d⟩
      ⟨iid, true, dur0, st, pg, cvi, [], none, 0, tc⟩
      ⟨iid, true, dur0, st, pg, cvi, [], none, 0, tc⟩ false).live.status = .completed ∧
    getRawContent (startTranscription ⟨true, c2, (fun j => .ok (r j)), (fun _ => false),
        fa, fb, now2, d⟩
      ⟨iid, true, dur0, st, pg, cvi, [], none, 0, tc⟩
      ⟨iid, true, dur0, st, pg, cvi, [], none, 0, tc⟩ false).live
      = some (transcriptOf r (List.range' 0 (numWindows d))) := by
  have h1 := c1_run1 r c f1 f2 now iid tc d dur0 st pg cvi kk hkn
  have hfull := c1_run_full r c2 fa fb now2 iid tc d dur0 st pg cvi (by omega)
  have h2 := c1_run2 r c2 fa fb now2 iid f1 now d .paused
    (round (((kk : ℚ) + 1) / (numWindows d : ℚ) * 100)) (some f1) rawProgressName
    (transcriptOf r (List.range' 0 (kk + 1))) none kk hkn
  have hsplitT : transcriptOf r (List.range' 0 (kk + 1)) ++
      transcriptOf r (List.range' (kk + 1) (numWindows d - (kk + 1)))
      = transcriptOf r (List.range' 0 (numWindows d)) := by
    rw [← transcriptOf_append, ← range'_split (kk + 1) (numWindows d) (by omega)]
  refine ⟨?_, ?_, ?_, ?_, ?_, ?_, ?_, ?_, ?_⟩
  · rw [h1]
  · rw [h1]
  · rw [h1]
    simp [getRawContent]
  · rw [h1]
    dsimp only
    rw [h2]
  · rw [h1]
    dsimp only
    rw [h2]
  · rw [h1]
    dsimp only
    rw [h2]
    simp [getRawContent, hsplitT]
  · rw [hfull]
  · rw [hfull]
  · rw [hfull]
    simp [getRawContent]

/-- C1 witness: d = 500 (3 chunks), run paused at chunk 1, resumed: resends
only chunks 1..2 and the final transcript equals the uninterrupted run's. -/
theorem c1_resume_equals_uninterrupted_witness :
    (0 + 1 < numWindows 500) ∧
    ((startTranscription ⟨true, true, (fun j => .ok ((fun _ => "w") j)),
        (fun j => j == 0 + 1), 7, 8, 5, 500⟩
      ⟨1, true, 0, .idle, 0, none, [], none, 0, 0⟩
      ⟨1, true, 0, .idle, 0, none, [], none, 0, 0⟩ false).live.processedChunks
      = 0 + 1 ∧
    (startTranscription ⟨true, true, (fun j => .ok ((fun _ => "w") j)),
        (fun j => j == 0 + 1), 7, 8, 5, 500⟩
      ⟨1, true, 0, .idle, 0, none, [], none, 0, 0⟩
      ⟨1, true, 0, .idle, 0, none, [], none, 0, 0⟩ false).live.status = .paused ∧
    getRawContent (startTranscription ⟨true, true, (fun j => .ok ((fun _ => "w") j)),
        (fun j => j == 0 + 1), 7, 8, 5, 500⟩
      ⟨1, true, 0, .idle, 0, none, [], none, 0, 0⟩
      ⟨1, true, 0, .idle, 0, none, [], none, 0, 0⟩ false).live
      = some (transcriptOf (fun _ => "w") (List.range' 0 (0 + 1))) ∧
    (startTranscription ⟨true, true, (fun j => .ok ((fun _ => "w") j)), (fun _ => false),
        17, 18, 15, 500⟩
      (startTranscription ⟨true, true, (fun j => .ok ((fun _ => "w") j)),
          (fun j => j == 0 + 1), 7, 8, 5, 500⟩
        ⟨1, true, 0, .idle, 0, none, [], none, 0, 0⟩
        ⟨1, true, 0, .idle, 0, none, [], none, 0, 0⟩ false).live
      (startTranscription ⟨true, true, (fun j => .ok ((fun _ => "w") j)),
          (fun j => j == 0 + 1), 7, 8, 5, 500⟩
        ⟨1, true, 0, .idle, 0, none, [], none, 0, 0⟩
        ⟨1, true, 0, .idle, 0, none, [], none, 0, 0⟩ false).live true).sent
      = List.range' (0 + 1) (numWindows 500 - (0 + 1)) ∧
    (startTranscription ⟨true, true, (fun j => .ok ((fun _ => "w") j)), (fun _ => false),
        17, 18, 15, 500⟩
      (startTranscription ⟨true, true, (fun j => .ok ((fun _ => "w") j)),
          (fun j => j == 0 + 1), 7, 8, 5, 500⟩
        ⟨1, true, 0, .idle, 0, none, [], none, 0, 0⟩
        ⟨1, true, 0, .idle, 0, none, [], none, 0, 0⟩ false).live
      (startTranscription ⟨true, true, (fun j => .ok ((fun _ => "w") j)),
          (fun j => j == 0 + 1), 7, 8, 5, 500⟩
        ⟨1, true, 0, .idle, 0, none, [], none, 0, 0⟩
        ⟨1, true, 0, .idle, 0, none, [], none, 0, 0⟩ false).live true).live.status
      = .completed ∧
    getRawContent (startTranscription ⟨true, true, (fun j => .ok ((fun _ => "w") j)),
        (fun _ => false), 17, 18, 15, 500⟩
      (startTranscription ⟨true, true, (fun j => .ok ((fun _ => "w") j)),
          (fun j => j == 0 + 1), 7, 8, 5, 500⟩
        ⟨1, true, 0, .idle, 0, none, [], none, 0, 0⟩
        ⟨1, true, 0, .idle, 0, none, [], none, 0, 0⟩ false).live
      (startTranscription ⟨true, true, (fun j => .ok ((fun _ => "w") j)),
          (fun j => j == 0 + 1), 7, 8, 5, 500⟩
        ⟨1, true, 0, .idle, 0, none, [], none, 0, 0⟩
        ⟨1, true, 0, .idle, 0, none, [], none, 0, 0⟩ false).live true).live
      = some (transcriptOf (fun _ => "w") (List.range' 0 (numWindows 500))) ∧
    (startTranscription ⟨true, true, (fun j => .ok ((fun _ => "w") j)), (fun _ => false),
        17, 18, 15, 500⟩
      ⟨1, true, 0, .idle, 0, none, [], none, 0, 0⟩
      ⟨1, true, 0, .idle, 0, none, [], none, 0, 0⟩ false).sent
      = List.range' 0 (numWindows 500) ∧
    (startTranscription ⟨true, true, (fun j => .ok ((fun _ => "w") j)), (fun _ => false),
        17, 18, 15, 500⟩
      ⟨1, true, 0, .idle, 0, none, [], none, 0, 0⟩
      ⟨1, true, 0, .idle, 0, none, [], none, 0, 0⟩ false).live.status = .completed ∧
    getRawContent (startTranscription ⟨true, true, (fun j => .ok ((fun _ => "w") j)),
        (fun _ => false), 17, 18, 15, 500⟩
      ⟨1, true, 0, .idle, 0, none, [], none, 0, 0⟩
      ⟨1, true, 0, .idle, 0, none, [], none, 0, 0⟩ false).live
      = some (transcriptOf (fun _ => "w") (List.range' 0 (numWindows 500)))) := by
  have hkn : 0 + 1 < numWindows 500 := by rw [numWindows_eval500]; omega
  exact ⟨hkn, c1_resume_equals_uninterrupted (fun _ => "w") true true 7 8 17 18 5 15
    1 0 500 0 .idle 0 none 0 hkn⟩

/-! ### C6: start index resolution -/

lemma runBody_sent_all_ok (env : StartEnv) (item live : MediaItem) (si base : Nat)
    (t0 : String) (iv : List Version) (r : Nat → String)
    (hresp : ∀ j, env.responses j = .ok (r j)) (hpause : ∀ j, env.pause j = false) :
    (runBody env item live si base t0 iv).sent
      = List.range' si (resolvedTotalAux env item si - si) := by
  have hgen : ∀ (T : Nat) (live1 : MediaItem) (cd : ℚ),
      (runBodyFinish env item cd T base iv
        (chunkLoop env.responses env.pause base T si live1 t0 [])).sent
      = List.range' si (T - si) := by
    intro T live1 cd
    rw [chunkLoop, chunkIter_all_ok env.responses env.pause r base T
          (List.range' si (T - si)) live1 t0 [] (fun i _ => hresp i) (fun i _ => hpause i),
        runBodyFinish_completed _ _ _ _ _ _ _ rfl rfl]
    simp
  rw [runBody, resolvedTotalAux]
  exact hgen _ _ _

/-- C6 counterexample: a non-resume start (resume = false) on an item with
processedChunks = 1 and the user confirming "continue" sends only chunk 1 —
not chunks 0 and 1 as startIndex = resume ? processedChunks : 0 would
require. -/
theorem c6_counterexample :
    (startTranscription ⟨true, true, (fun _ => .ok "w"), (fun _ => false), 7, 8, 5, 480⟩
      ⟨1, true, 480, .idle, 0, some 0,
        [⟨0, .RAW, rawProgressName, "a ", none, 0, none⟩], none, 1, 2⟩
      ⟨1, true, 480, .idle, 0, some 0,
        [⟨0, .RAW, rawProgressName, "a ", none, 0, none⟩], none, 1, 2⟩ false).sent
      = [1] ∧
    ([1] : List Nat) ≠ [0, 1] := by
  constructor
  · rw [startTranscription]
    rw [if_neg (by simp), if_neg (by simp)]
    dsimp only
    rw [if_neg (by simp), if_neg (by simp), if_neg (by simp)]
    have hfind : ([⟨0, .RAW, rawProgressName, "a ", none, 0, none⟩] : List Version).find?
        (fun v => v.stage == .RAW) = some ⟨0, .RAW, rawProgressName, "a ", none, 0, none⟩ := rfl
    rw [hfind]
    dsimp only
    rw [runBody_nonzero_start ⟨true, true, (fun _ => .ok "w"), (fun _ => false), 7, 8, 5, 480⟩
          ⟨1, true, 480, .idle, 0, some 0,
            [⟨0, .RAW, rawProgressName, "a ", none, 0, none⟩], none, 1, 2⟩
          ⟨1, true, 480, .processing, 0, some 0,
            [⟨0, .RAW, rawProgressName, "a ", none, 0, none⟩], none, 1, 2⟩
          1 0 "a "
          [⟨0, .RAW, rawProgressName, "a ", none, 0, none⟩]
          (by norm_num) (by norm_num) (by norm_num)]
    dsimp only
    rw [chunkLoop, chunkIter_all_ok (fun _ => .ok "w") (fun _ => false) (fun _ => "w") 0 2
          (List.range' 1 (2 - 1))
          ⟨1, true, 480, .processing, 0, some 0,
            [⟨0, .RAW, rawProgressName, "a ", none, 0, none⟩], none, 1, 2⟩
          "a " [] (fun i _ => rfl) (fun i _ => rfl),
        runBodyFinish_completed _ _ _ _ _ _ _ rfl rfl]
    decide
  · decide

/-- C6 amended: startTranscription resolves its start index as
item.processedChunks regardless of the resume flag.  With all-succeeding
responses and no pause signal, on any non-restart invocation (processedChunks
= 0 or the user confirming "continue") the chunks sent are exactly
processedChunks .. resolvedTotal − 1; choosing restart (non-resume, prior
progress, confirm declined) resets the live counters and recurses as a fresh
run on the parameter with processedChunks reset (hence from chunk 0). -/
theorem c6_start_index (env : StartEnv) (live item : MediaItem) (b : Bool)
    (r : Nat → String) (ha : env.apiKey = true) (hf : item.hasFile = true)
    (h0c : item.processedChunks = 0 ∨ env.confirmContinue = true)
    (hresp : ∀ j, env.responses j = .ok (r j)) (hpause : ∀ j, env.pause j = false) :
    (startTranscription env live item b).sent
      = List.range' item.processedChunks
          (resolvedTotal env item - item.processedChunks) ∧
    (∀ (env2 : StartEnv) (live2 item2 : MediaItem),
      env2.apiKey = true → item2.hasFile = true → item2.processedChunks > 0 →
      env2.confirmContinue = false →
      startTranscription env2 live2 item2 false =
        freshRun { env2 with freshId := env2.freshId2 }
          { { live2 with status := .processing, error := none } with
            processedChunks := 0, totalChunks := 0 }
          { item2 with processedChunks := 0 }) := by
  constructor
  · rw [startTranscription]
    rw [if_neg (by simp [ha]), if_neg (by simp [hf])]
    dsimp only
    rw [resolvedTotal]
    by_cases hrv : b = true ∧ item.versions ≠ []
    · rw [if_pos hrv]
      cases item.versions.find? (fun v => v.stage == .RAW) with
      | some raw => exact runBody_sent_all_ok env item _ _ _ _ _ r hresp hpause
      | none => exact runBody_sent_all_ok env item _ _ _ _ _ r hresp hpause
    · rw [if_neg hrv]
      rw [if_neg (by rcases h0c with h | h <;> simp [h] <;> omega)]
      by_cases h0 : item.processedChunks = 0
      · rw [if_pos h0, freshRun, h0]
        exact runBody_sent_all_ok env item _ _ _ _ _ r hresp hpause
      · rw [if_neg h0]
        cases item.versions.find? (fun v => v.stage == .RAW) with
        | some raw => exact runBody_sent_all_ok env item _ _ _ _ _ r hresp hpause
        | none => exact runBody_sent_all_ok env item _ _ _ _ _ r hresp hpause
  · intro env2 live2 item2 ha2 hf2 hp2 hc2
    rw [startTranscription]
    rw [if_neg (by simp [ha2]), if_neg (by simp [hf2])]
    dsimp only
    rw [if_neg (by simp), if_pos (by exact ⟨hp2, by simp [hc2]⟩)]

/-- C6 amended witness: non-resume start with processedChunks = 1 and
confirm = continue sends exactly chunk 1 (resolvedTotal = 2). -/
theorem c6_start_index_witness :
    (startTranscription ⟨true, true, (fun _ => .ok "w"), (fun _ => false), 7, 8, 5, 480⟩
      ⟨1, true, 480, .idle, 0, some 0,
        [⟨0, .RAW, rawProgressName, "a ", none, 0, none⟩], none, 1, 2⟩
      ⟨1, true, 480, .idle, 0, some 0,
        [⟨0, .RAW, rawProgressName, "a ", none, 0, none⟩], none, 1, 2⟩ true).sent
      = List.range' 1
          (resolvedTotal ⟨true, true, (fun _ => .ok "w"), (fun _ => false), 7, 8, 5, 480⟩
            ⟨1, true, 480, .idle, 0, some 0,
              [⟨0, .RAW, rawProgressName, "a ", none, 0, none⟩], none, 1, 2⟩ - 1) :=
  (c6_start_index ⟨true, true, (fun _ => .ok "w"), (fun _ => false), 7, 8, 5, 480⟩
    ⟨1, true, 480, .idle, 0, some 0,
      [⟨0, .RAW, rawProgressName, "a ", none, 0, none⟩], none, 1, 2⟩
    ⟨1, true, 480, .idle, 0, some 0,
      [⟨0, .RAW, rawProgressName, "a ", none, 0, none⟩], none, 1, 2⟩ true
    (fun _ => "w") rfl rfl (Or.inr rfl) (fun _ => rfl) (fun _ => rfl)).1

/-! ### C4: no status guard in startTranscription; guarding is caller-side -/

/-- C4 counterexample: invoking startTranscription on an item already in
'processing' does not no-op: it runs the loop (chunk 0 is sent) and mutates
the item (status ends 'completed'). -/
theorem c4_counterexample :
    (startTranscription ⟨true, true, (fun j => .ok ((fun _ => "w") j)),
        (fun _ => false), 7, 8, 5, 240⟩
      ⟨1, true, 0, .processing, 0, none, [], none, 0, 0⟩
      ⟨1, true, 0, .processing, 0, none, [], none, 0, 0⟩ false).sent = [0] ∧
    (startTranscription ⟨true, true, (fun j => .ok ((fun _ => "w") j)),
        (fun _ => false), 7, 8, 5, 240⟩
      ⟨1, true, 0, .processing, 0, none, [], none, 0, 0⟩
      ⟨1, true, 0, .processing, 0, none, [], none, 0, 0⟩ false).live.status
      = .completed ∧
    (⟨1, true, 0, .processing, 0, none, [], none, 0, 0⟩ : MediaItem).status
      = .processing := by
  have h := c1_run_full (fun _ => "w") true 7 8 5 1 0 240 0 .processing 0 none
    (by rw [numWindows_eval240]; omega)
  refine ⟨?_, ?_, rfl⟩
  · rw [h]
    dsimp only
    rw [numWindows_eval240]
    decide
  · rw [h]

/-- C4 amended: startTranscription performs no status check — its outcome is
identical whatever the item parameter's status (in particular for
'processing'); prevention of concurrent runs is left to the callers: the
start/resume button is rendered only for idle or paused items, and the
auto-resume listener picks only paused items. -/
theorem c4_no_status_guard :
    (∀ (env : StartEnv) (live item : MediaItem) (b : Bool) (s1 s2 : Status),
      startTranscription env live { item with status := s1 } b
        = startTranscription env live { item with status := s2 } b) ∧
    (∀ item : MediaItem, startButtonShown { item with status := .processing } = false) ∧
    (∀ (q : List MediaItem) (j : MediaItem),
      handleOnlinePick q = some j → j.status = .paused) := by
  refine ⟨?_, ?_, ?_⟩
  · intro env live item b s1 s2
    cases item
    rfl
  · intro item
    simp [startButtonShown]
  · intro q j hj
    have := List.find?_some hj
    simpa using this

/-- C4 amended witness: the reconnection listener's pick from a queue holding
one paused item is that item, and its status is paused. -/
theorem c4_no_status_guard_witness :
    (⟨2, true, 0, .paused, 0, none, [], none, 0, 0⟩ : MediaItem).status = .paused :=
  c4_no_status_guard.2.2 [⟨2, true, 0, .paused, 0, none, [], none, 0, 0⟩]
    ⟨2, true, 0, .paused, 0, none, [], none, 0, 0⟩ rfl

/-! ### C7 and C10: stage runs only append; pointer and placeholder behaviour -/

/-- C7: once an item is completed, a stage run (any stage, success or failure
of the remote transform) never changes any pre-existing version: the final
version list is the original list with exactly one new node appended, carrying
the fresh id. -/
theorem c7_stage_preserves_versions (freshId now parentVersionId : Nat)
    (result : Except String String) (item : MediaItem) (stage : ProcessingStage)
    (customPrompt : Option String) (hstatus : item.status = .completed)
    (hparent : (item.versions.find? (fun v => v.id == parentVersionId)).isSome)
    (hfresh : ∀ v ∈ item.versions, v.id ≠ freshId) :
    ∃ nv : Version,
      (runStage true freshId now result item stage parentVersionId customPrompt).live.versions
        = item.versions ++ [nv] ∧ nv.id = freshId ∧
      (runStage true freshId now result item stage parentVersionId customPrompt).live.versions.length
        = item.versions.length + 1 := by
  obtain ⟨pv, hpv⟩ := Option.isSome_iff_exists.mp hparent
  rw [runStage, runStagePre]
  rw [if_neg (by simp), hpv]
  dsimp only
  cases result with
  | ok res =>
    refine ⟨⟨freshId, stage, stageNameOf stage, res, some parentVersionId, now,
      customPrompt⟩, ?_, rfl, ?_⟩
    · dsimp only [addVersionToItem]
      rw [patchVersion_append_fresh item.versions _ freshId _ _ hfresh rfl]
    · dsimp only [addVersionToItem]
      rw [patchVersion_append_fresh item.versions _ freshId _ _ hfresh rfl]
      simp
  | error m =>
    refine ⟨⟨freshId, stage, stageNameOf stage ++ " (ناموفق)", stageFailContent,
      some parentVersionId, now, customPrompt⟩, ?_, rfl, ?_⟩
    · dsimp only [addVersionToItem]
      rw [patchVersion_append_fresh item.versions _ freshId _ _ hfresh rfl]
    · dsimp only [addVersionToItem]
      rw [patchVersion_append_fresh item.versions _ freshId _ _ hfresh rfl]
      simp

/-- C7 witness: completed item with one RAW version; the ARABIC stage run on
success appends one node and leaves the RAW version untouched. -/
theorem c7_stage_preserves_versions_witness :
    ((⟨1, true, 0, .completed, 100, some 0,
        [⟨0, .RAW, "n", "hello", none, 0, none⟩], none, 1, 1⟩ : MediaItem).status
      = .completed) ∧
    (∃ nv : Version,
      (runStage true 5 9 (.ok "X")
        ⟨1, true, 0, .completed, 100, some 0,
          [⟨0, .RAW, "n", "hello", none, 0, none⟩], none, 1, 1⟩
        .ARABIC 0 none).live.versions
        = [⟨0, .RAW, "n", "hello", none, 0, none⟩] ++ [nv] ∧ nv.id = 5 ∧
      (runStage true 5 9 (.ok "X")
        ⟨1, true, 0, .completed, 100, some 0,
          [⟨0, .RAW, "n", "hello", none, 0, none⟩], none, 1, 1⟩
        .ARABIC 0 none).live.versions.length
        = ([⟨0, .RAW, "n", "hello", none, 0, none⟩] : List Version).length + 1) :=
  ⟨rfl, c7_stage_preserves_versions 5 9 0 (.ok "X")
    ⟨1, true, 0, .completed, 100, some 0,
      [⟨0, .RAW, "n", "hello", none, 0, none⟩], none, 1, 1⟩
    .ARABIC none rfl (by decide) (by decide)⟩

/-- C10: when parentVersionId resolves, runStage immediately (before the
remote transform resolves) appends a placeholder version with parentId =
parentVersionId and points currentVersionId at it; the pointer still refers
to it after the call, on both the success and the failure path, and on
failure that version's content becomes the failure marker. -/
theorem c10_placeholder_and_pointer (freshId now parentVersionId : Nat)
    (item : MediaItem) (stage : ProcessingStage) (customPrompt : Option String)
    (hparent : (item.versions.find? (fun v => v.id == parentVersionId)).isSome)
    (hfresh : ∀ v ∈ item.versions, v.id ≠ freshId) :
    ∃ mid nv,
      runStagePre true freshId now item stage parentVersionId customPrompt
        = some (mid, nv) ∧
      nv.id = freshId ∧ nv.parentId = some parentVersionId ∧
      mid.versions = item.versions ++ [nv] ∧
      mid.currentVersionId = some freshId ∧
      mid.status = .processing ∧
      (∀ result, (runStage true freshId now result item stage parentVersionId
          customPrompt).live.currentVersionId = some freshId) ∧
      (∀ m, ∃ nv2,
        (runStage true freshId now (.error m) item stage parentVersionId
            customPrompt).live.versions = item.versions ++ [nv2] ∧
        nv2.id = freshId ∧ nv2.content = stageFailContent) := by
  obtain ⟨pv, hpv⟩ := Option.isSome_iff_exists.mp hparent
  have hpre : runStagePre true freshId now item stage parentVersionId customPrompt
      = some ({ addVersionToItem item
          ⟨freshId, stage, stageNameOf stage ++ " (در حال پردازش...)", waitContent,
            some parentVersionId, now, customPrompt⟩ true with
          status := .processing, progress := 0 },
        ⟨freshId, stage, stageNameOf stage ++ " (در حال پردازش...)", waitContent,
          some parentVersionId, now, customPrompt⟩) := by
    rw [runStagePre, if_neg (by simp), hpv]
  refine ⟨_, _, hpre, rfl, rfl, by simp [addVersionToItem], by simp [addVersionToItem],
    rfl, ?_, ?_⟩
  · intro result
    rw [runStage, hpre]
    cases result with
    | ok res => simp [addVersionToItem]
    | error m => simp [addVersionToItem]
  · intro m
    rw [runStage, hpre]
    dsimp only
    refine ⟨⟨freshId, stage, stageNameOf stage ++ " (ناموفق)", stageFailContent,
      some parentVersionId, now, customPrompt⟩, ?_, rfl, rfl⟩
    dsimp only [addVersionToItem]
    rw [patchVersion_append_fresh item.versions _ freshId _ _ hfresh rfl]

/-- C10 witness: concrete completed item, ARABIC stage, parent id 0, fresh id
5: placeholder appended and made current. -/
theorem c10_placeholder_and_pointer_witness :
    ∃ mid nv,
      runStagePre true 5 9
        ⟨1, true, 0, .completed, 100, some 0,
          [⟨0, .RAW, "n", "hello", none, 0, none⟩], none, 1, 1⟩
        .ARABIC 0 none = some (mid, nv) ∧
      nv.id = 5 ∧ nv.parentId = some 0 ∧
      mid.versions = [⟨0, .RAW, "n", "hello", none, 0, none⟩] ++ [nv] ∧
      mid.currentVersionId = some 5 ∧
      mid.status = .processing ∧
      (∀ result, (runStage true 5 9 result
          ⟨1, true, 0, .completed, 100, some 0,
            [⟨0, .RAW, "n", "hello", none, 0, none⟩], none, 1, 1⟩
          .ARABIC 0 none).live.currentVersionId = some 5) ∧
      (∀ m, ∃ nv2,
        (runStage true 5 9 (.error m)
            ⟨1, true, 0, .completed, 100, some 0,
              [⟨0, .RAW, "n", "hello", none, 0, none⟩], none, 1, 1⟩
            .ARABIC 0 none).live.versions
          = [⟨0, .RAW, "n", "hello", none, 0, none⟩] ++ [nv2] ∧
        nv2.id = 5 ∧ nv2.content = stageFailContent) :=
  c10_placeholder_and_pointer 5 9 0
    ⟨1, true, 0, .completed, 100, some 0,
      [⟨0, .RAW, "n", "hello", none, 0, none⟩], none, 1, 1⟩
    .ARABIC none (by decide) (by decide)
